import Mathlib

/-
Verification of the SharePoint state reconciler
(`Shared_Processors/JamfUploadSharepointUpdater.py`).

The processor's `main` method reconciles three SharePoint lists
("Jamf Content List", "Jamf Test Coordination", "Jamf Test Review")
based on a packaging event.  We embed:

  * records as association lists of (field name, value) pairs, with an
    absent field reading as the empty string;
  * the query builder `build_query` together with the shareplum
    boolean-chain evaluation of the reversed `Where` token list;
  * the list primitives `check_list`, `update_record`, `add_record`,
    `delete_record` (row-by-row updates/deletes over the rows matched by
    the query are modelled as a map/filter over the matching rows, which
    has the same net effect on the list state);
  * the whole of `main` as a program tree `Prog` whose nodes are the
    remote calls issued, with a state semantics `run`, a call-trace
    semantics `callTrace`, and a truncated semantics `runBudget` that
    models a remote call failing partway through the run.
-/

set_option maxHeartbeats 1000000

namespace JamfSP

/-- A SharePoint list row: an association list of field/value pairs.
A field that was never set reads as the empty string. -/
abbrev Record := List (String × String)

/-- Read a field of a record; absent fields read as the empty string. -/
def getField (r : Record) (k : String) : String :=
  match r.find? (fun p => p.1 == k) with
  | some p => p.2
  | none => ""

/-- Write a field of a record: overwrite every pair carrying the key if
the key is present, otherwise append the new pair. -/
def setField (r : Record) (k v : String) : Record :=
  if r.any (fun p => p.1 == k) then
    r.map (fun p => if p.1 == k then (k, v) else p)
  else
    r ++ [(k, v)]

/-- The field `k` is explicitly present in the record and every pair
carrying it holds the value `v` (so a further `setField k v` is a no-op). -/
def fieldSetTo (r : Record) (k v : String) : Bool :=
  r.any (fun p => p.1 == k) && r.all (fun p => !(p.1 == k) || p.2 == v)

/-- One criterion as inserted into the Python `criteria` dict:
`(key, operand, value)` stands for `criteria[key] = [operand, value]`. -/
abbrev Criteria := List (String × String × String)

/-- A token of the `Where` part of a shareplum query: either a boolean
operator marker such as `"And"`, or a comparison `(operand, key, value)`. -/
inductive QTok where
  | op (s : String)
  | cmp (operand key value : String)

/-- The token sequence appended by the loop in `build_query` (the value of
`query["Where"]` before the final `reverse`): the first criterion
contributes its comparison only, every later criterion contributes its
comparison followed by an `"And"` marker. -/
def whereTokens : Bool → Criteria → List QTok
  | _, [] => []
  | first, (key, operand, value) :: rest =>
      (QTok.cmp operand key value :: (if first then [] else [QTok.op "And"]))
        ++ whereTokens false rest

/-- `build_query` from the source: returns the fetch-field list (always
starting with `"ID"`) and the reversed `Where` token chain. -/
def build_query (criteria : Criteria) : List String × List QTok :=
  ("ID" :: criteria.map (fun c => c.1), (whereTokens true criteria).reverse)

/-- Evaluate one comparison against a record.  The source only ever uses
the operands `"Eq"` and `"Neq"`. -/
def evalPred (r : Record) (operand key value : String) : Bool :=
  if operand = "Eq" then getField r key == value
  else if operand = "Neq" then !(getField r key == value)
  else false

/-- The store's boolean-tree semantics of a `Where` chain, as shareplum
parses it: a chain `[And, c_n, And, c_(n-1), ..., And, c_2, c_1]` denotes
the right-nested conjunction of its comparisons.  A malformed chain
matches nothing; the empty chain matches everything. -/
def evalWhere (r : Record) : List QTok → Bool
  | [] => true
  | [QTok.cmp operand key value] => evalPred r operand key value
  | QTok.op "And" :: QTok.cmp operand key value :: rest =>
      evalPred r operand key value && evalWhere r rest
  | _ => false

/-- A record matches a criteria dict iff the store's evaluation of the
query built from it returns the record. -/
def recordMatches (criteria : Criteria) (r : Record) : Bool :=
  evalWhere r (build_query criteria).2

/-- The joint state of the three SharePoint lists. -/
structure SPState where
  contentList : List Record
  testCoord : List Record
  testReview : List Record
deriving DecidableEq

/-- Dispatch a list name to the corresponding list of rows. -/
def getList (s : SPState) (listname : String) : List Record :=
  if listname = "Jamf Content List" then s.contentList
  else if listname = "Jamf Test Coordination" then s.testCoord
  else if listname = "Jamf Test Review" then s.testReview
  else []

/-- Replace the rows of the named list. -/
def setList (s : SPState) (listname : String) (l : List Record) : SPState :=
  if listname = "Jamf Content List" then { s with contentList := l }
  else if listname = "Jamf Test Coordination" then { s with testCoord := l }
  else if listname = "Jamf Test Review" then { s with testReview := l }
  else s

/-- Does any row of the list match the criteria? -/
def anyMatch (l : List Record) (criteria : Criteria) : Bool :=
  l.any (fun r => recordMatches criteria r)

/-- `check_list` from the source: true iff `GetListItems` returns at
least one row for the built query. -/
def check_list (s : SPState) (listname : String) (criteria : Criteria) : Bool :=
  anyMatch (getList s listname) criteria

/-- The effect on a row list of `update_record`: every row returned by
the query gets the field set (the source updates each matched row by ID). -/
def updList (criteria : Criteria) (k v : String) (l : List Record) : List Record :=
  l.map (fun r => if recordMatches criteria r then setField r k v else r)

/-- `update_record` from the source. -/
def update_record (s : SPState) (listname k v : String) (criteria : Criteria) : SPState :=
  setList s listname (updList criteria k v (getList s listname))

/-- `add_record` from the source: append a fresh row with a single field. -/
def add_record (s : SPState) (listname k v : String) : SPState :=
  setList s listname (getList s listname ++ [[(k, v)]])

/-- The effect on a row list of `delete_record`: every row returned by
the query is deleted. -/
def delList (criteria : Criteria) (l : List Record) : List Record :=
  l.filter (fun r => !(recordMatches criteria r))

/-- `delete_record` from the source. -/
def delete_record (s : SPState) (listname : String) (criteria : Criteria) : SPState :=
  setList s listname (delList criteria (getList s listname))

/-- Is `needle` a prefix of the character list? -/
def pfxChars : List Char → List Char → Bool
  | [], _ => true
  | _ :: _, [] => false
  | a :: as, b :: bs => a == b && pfxChars as bs

/-- Does the character list contain `needle` as a contiguous run? -/
def subChars (needle : List Char) : List Char → Bool
  | [] => pfxChars needle []
  | b :: bs => pfxChars needle (b :: bs) || subChars needle bs

/-- Python's `needle in hay` substring test on strings. -/
def hasSub (hay needle : String) : Bool :=
  subChars needle.toList hay.toList

/-- The untested-flow final policy name (source lines 211-219): start from
the product name and append each optional attribute when it is non-empty
(Python truthiness of the string). -/
def finalPolicyName (name major_version policy_language policy_license platform : String) :
    String :=
  let fpn := name
  let fpn := if major_version ≠ "" then fpn ++ " " ++ major_version else fpn
  let fpn := if policy_language ≠ "" then fpn ++ " " ++ policy_language else fpn
  let fpn := if policy_license ≠ "" then fpn ++ " " ++ policy_license else fpn
  if platform ≠ "" then fpn ++ " " ++ platform else fpn

/-- The versioned self-service policy name used to key Test Coordination
and Test Review rows (source lines 222 and 644). -/
def selfServicePolicyName (final_policy_name version : String) : String :=
  final_policy_name ++ " (Testing) v" ++ version

/-- The UTF-8 bytes of a character, as natural numbers. -/
def utf8Bytes (c : Char) : List Nat :=
  let n := c.toNat
  if n < 128 then [n]
  else if n < 2048 then [192 + n / 64, 128 + n % 64]
  else if n < 65536 then [224 + n / 4096, 128 + (n / 64) % 64, 128 + n % 64]
  else [240 + n / 262144, 128 + (n / 4096) % 64, 128 + (n / 64) % 64, 128 + n % 64]

/-- Bytes never quoted by Python's `urllib.parse.quote`: ASCII letters,
digits, and `_ . - ~`. -/
def safeByte (b : Nat) : Bool :=
  (48 ≤ b && b ≤ 57) || (65 ≤ b && b ≤ 90) || (97 ≤ b && b ≤ 122) ||
    b == 45 || b == 46 || b == 95 || b == 126

/-- Upper-case hexadecimal digit. -/
def hexDigit (n : Nat) : Char :=
  if n < 10 then Char.ofNat (48 + n) else Char.ofNat (55 + n)

/-- Percent-encode one byte. -/
def pctEncode (b : Nat) : String :=
  String.mk ['%', hexDigit (b / 16), hexDigit (b % 16)]

/-- Encode one byte the way `urllib.parse.quote_plus` does: safe bytes
stand for themselves, a space becomes `+`, everything else is
percent-encoded. -/
def quoteByte (b : Nat) : String :=
  if safeByte b then String.mk [Char.ofNat b]
  else if b == 32 then "+"
  else pctEncode b

/-- Python's `urllib.parse.quote_plus` on a string (over its UTF-8 bytes). -/
def quote_plus (s : String) : String :=
  String.join (((s.toList.map utf8Bytes).flatten).map quoteByte)

/-- `test_report_url` from the source: `urlencode({"Title": policy_name})`
appended to the display-form URL of the `Jamf_Item_Test` list. -/
def test_report_url (sp_url policy_name : String) : String :=
  sp_url ++ "/Lists/Jamf_Item_Test/DispForm.aspx?" ++ "Title=" ++ quote_plus policy_name

/-- The program tree of remote calls issued by `main`: each node is one
reconciler operation against the store, `check` passes its result to the
continuation. -/
inductive Prog where
  | done
  | connect (k : Prog)
  | check (listname : String) (criteria : Criteria) (k : Bool → Prog)
  | update (listname key value : String) (criteria : Criteria) (k : Prog)
  | add (listname key value : String) (k : Prog)
  | delete (listname : String) (criteria : Criteria) (k : Prog)

/-- State semantics of a program: execute every call in order. -/
def run : Prog → SPState → SPState
  | .done, s => s
  | .connect k, s => run k s
  | .check l c k, s => run (k (check_list s l c)) s
  | .update l key v c k, s => run k (update_record s l key v c)
  | .add l key v k, s => run k (add_record s l key v)
  | .delete l c k, s => run k (delete_record s l c)

/-- One remote call, as recorded in a trace. -/
inductive Call where
  | connect
  | query (listname : String) (criteria : Criteria)
  | update (listname key value : String) (criteria : Criteria)
  | create (listname key value : String)
  | delete (listname : String) (criteria : Criteria)

/-- Effect of one call on the list state (reads change nothing). -/
def applyCall (s : SPState) : Call → SPState
  | .connect => s
  | .query _ _ => s
  | .update l k v c => update_record s l k v c
  | .create l k v => add_record s l k v
  | .delete l c => delete_record s l c

/-- Effect of a call sequence on the list state. -/
def applyCalls (cs : List Call) (s : SPState) : SPState :=
  cs.foldl applyCall s

/-- The ordered sequence of remote calls a failure-free execution of the
program issues from the given initial state. -/
def callTrace : Prog → SPState → List Call
  | .done, _ => []
  | .connect k, s => Call.connect :: callTrace k s
  | .check l c k, s => Call.query l c :: callTrace (k (check_list s l c)) s
  | .update l key v c k, s => Call.update l key v c :: callTrace k (update_record s l key v c)
  | .add l key v k, s => Call.create l key v :: callTrace k (add_record s l key v)
  | .delete l c k, s => Call.delete l c :: callTrace k (delete_record s l c)

/-- Truncated semantics modelling a remote call failing partway through:
the first `n` remote calls succeed, the next call fails and aborts the
remaining sequence, leaving the state reached so far. -/
def runBudget : Prog → SPState → Nat → SPState
  | .done, s, _ => s
  | .connect _, s, 0 => s
  | .connect k, s, n + 1 => runBudget k s n
  | .check _ _ _, s, 0 => s
  | .check l c k, s, n + 1 => runBudget (k (check_list s l c)) s n
  | .update _ _ _ _ _, s, 0 => s
  | .update l key v c k, s, n + 1 => runBudget k (update_record s l key v c) n
  | .add _ _ _ _, s, 0 => s
  | .add l key v k, s, n + 1 => runBudget k (add_record s l key v) n
  | .delete _ _ _, s, 0 => s
  | .delete l c k, s, n + 1 => runBudget k (delete_record s l c) n

/-- The processor's input environment (`self.env`); a variable that was
not supplied reads as the empty string, matching Python falsiness of
`None` and of the empty string. -/
structure Config where
  policy_category : String
  category : String
  version : String
  name : String
  selfservice_policy_name : String
  language : String
  license : String
  major_version : String
  platform : String
  executable_command : String
  process_name : String
  jss_url : String
  sp_url : String
  sp_user : String
  sp_pass : String
deriving DecidableEq

/-- Flow A, Jamf Content List section (source lines 241-293): upsert the
entry keyed by the final policy name, then set Untested Version, Category
and Content Type. -/
def contentSectA (fpn version category : String) (next : Prog) : Prog :=
  Prog.check "Jamf Content List" [("Self Service Content", "Eq", fpn)]
    fun app_in_content_list =>
      let updates :=
        Prog.update "Jamf Content List" "Untested Version" version
          [("Self Service Content", "Eq", fpn)]
          (Prog.update "Jamf Content List" "Category" category
            [("Self Service Content", "Eq", fpn)]
            (Prog.update "Jamf Content List" "Content Type" "Application"
              [("Self Service Content", "Eq", fpn)] next))
      if app_in_content_list then updates
      else Prog.add "Jamf Content List" "Self Service Content" fpn updates

/-- Flow A, autostage flag read (source lines 296-301). -/
def autostageCheckA (fpn : String) (next : Bool → Prog) : Prog :=
  Prog.check "Jamf Content List"
    [("Self Service Content", "Eq", fpn), ("Autostage", "Eq", "Yes")] next

/-- The statuses that mean some test work was already done (source
lines 367-372). -/
def statusChecksA : List String :=
  ["In progress", "Done", "Deferred", "Waiting for other test manager"]

/-- Flow A, the loop resetting already-worked-on unreleased entries to
"Needs review" (source lines 373-397). -/
def statusLoopA (ssn : String) : List String → Prog → Prog
  | [], next => next
  | chk :: rest, next =>
      Prog.check "Jamf Test Coordination"
        [("Self Service Content Name", "Eq", ssn), ("Release Completed", "Eq", "No"),
          ("Status", "Eq", chk)]
        fun tested =>
          if tested then
            Prog.update "Jamf Test Coordination" "Status" "Needs review"
              [("Self Service Content Name", "Eq", ssn), ("Release Completed", "Eq", "No"),
                ("Status", "Eq", chk)]
              (statusLoopA ssn rest next)
          else statusLoopA ssn rest next

/-- Flow A, creation of a fresh Test Coordination entry: add the row, set
its Final Content Name, and set Status to Autostage when flagged (source
lines 428-470). -/
def coordSectA_create (fpn ssn : String) (is_app_autostage : Bool) (next : Prog) : Prog :=
  Prog.add "Jamf Test Coordination" "Self Service Content Name" ssn
    (Prog.update "Jamf Test Coordination" "Final Content Name" fpn
      [("Self Service Content Name", "Eq", ssn)]
      (if is_app_autostage then
        Prog.update "Jamf Test Coordination" "Status" "Autostage"
          [("Self Service Content Name", "Eq", ssn)] next
      else next))

/-- Flow A, Test Coordination from the exact-entry check onwards: status
resets on an existing entry, or obsoleting of stale unreleased entries
followed by creation (source lines 334-470). -/
def coordSectA_step2 (fpn ssn : String) (is_app_autostage : Bool) (next : Prog) : Prog :=
  Prog.check "Jamf Test Coordination" [("Self Service Content Name", "Eq", ssn)]
    fun exact =>
      if exact then
        if is_app_autostage then
          Prog.update "Jamf Test Coordination" "Status" "Autostage"
            [("Self Service Content Name", "Eq", ssn), ("Status", "Neq", "Autostage")]
            next
        else statusLoopA ssn statusChecksA next
      else
        Prog.check "Jamf Test Coordination"
          [("Final Content Name", "Eq", fpn), ("Release Completed", "Eq", "No"),
            ("Status", "Neq", "Obsolete")]
          fun unreleased =>
            if unreleased then
              Prog.update "Jamf Test Coordination" "Status" "Obsolete"
                [("Final Content Name", "Eq", fpn), ("Release Completed", "Eq", "No"),
                  ("Status", "Neq", "Obsolete")]
                (coordSectA_create fpn ssn is_app_autostage next)
            else coordSectA_create fpn ssn is_app_autostage next

/-- Flow A, Jamf Test Coordination section (source lines 311-470): reset
Release Completed on a released exact entry, then continue with the
exact-entry handling. -/
def coordSectA (fpn ssn : String) (is_app_autostage : Bool) (next : Prog) : Prog :=
  Prog.check "Jamf Test Coordination"
    [("Self Service Content Name", "Eq", ssn), ("Release Completed", "Eq", "Yes")]
    fun released =>
      if released then
        Prog.update "Jamf Test Coordination" "Release Completed" "No"
          [("Self Service Content Name", "Eq", ssn), ("Release Completed", "Eq", "Yes")]
          (coordSectA_step2 fpn ssn is_app_autostage next)
      else coordSectA_step2 fpn ssn is_app_autostage next

/-- Flow A, creation of a fresh Test Review entry: add the row, then set
Final Content Name, Executable_Command and Process_Name (source lines
591-640). -/
def reviewSectA_create (fpn ssn executable_command process_name : String)
    (next : Prog) : Prog :=
  Prog.add "Jamf Test Review" "Self Service Content Name" ssn
    (Prog.update "Jamf Test Review" "Final Content Name" fpn
      [("Self Service Content Name", "Eq", ssn)]
      (Prog.update "Jamf Test Review" "Executable_Command" executable_command
        [("Self Service Content Name", "Eq", ssn)]
        (Prog.update "Jamf Test Review" "Process_Name" process_name
          [("Self Service Content Name", "Eq", ssn)] next)))

/-- Flow A, Jamf Test Review section (source lines 472-640). -/
def reviewSectA (fpn ssn executable_command process_name : String) (next : Prog) : Prog :=
  Prog.check "Jamf Test Review" [("Self Service Content Name", "Eq", ssn)]
    fun exact =>
      if exact then
        Prog.update "Jamf Test Review" "Release Completed TST" "No"
          [("Self Service Content Name", "Eq", ssn)]
          (Prog.update "Jamf Test Review" "Release Completed PRD" "No"
            [("Self Service Content Name", "Eq", ssn)]
            (Prog.update "Jamf Test Review" "Ready for Production" "No"
              [("Self Service Content Name", "Eq", ssn)]
              (Prog.update "Jamf Test Review" "Executable_Command" executable_command
                [("Self Service Content Name", "Eq", ssn)]
                (Prog.update "Jamf Test Review" "Process_Name" process_name
                  [("Self Service Content Name", "Eq", ssn)] next))))
      else
        Prog.check "Jamf Test Review"
          [("Final Content Name", "Eq", fpn), ("Release Completed TST", "Eq", "No")]
          fun not_released =>
            if not_released then
              Prog.delete "Jamf Test Review"
                [("Final Content Name", "Eq", fpn), ("Release Completed TST", "Eq", "No")]
                (reviewSectA_create fpn ssn executable_command process_name next)
            else
              Prog.check "Jamf Test Review"
                [("Final Content Name", "Eq", fpn), ("Release Completed PRD", "Eq", "No")]
                fun not_prd =>
                  if not_prd then
                    Prog.update "Jamf Test Review" "Release Completed PRD" "Skipped"
                      [("Final Content Name", "Eq", fpn),
                        ("Release Completed PRD", "Eq", "No")]
                      (reviewSectA_create fpn ssn executable_command process_name next)
                  else reviewSectA_create fpn ssn executable_command process_name next

/-- Flow B, Jamf Test Coordination section (source lines 657-752). -/
def coordSectB (fpn ssn jss_url : String) (next : Prog) : Prog :=
  Prog.check "Jamf Test Coordination" [("Self Service Content Name", "Eq", ssn)]
    fun exact =>
      let cont :=
        if hasSub jss_url "prd" then
          Prog.check "Jamf Content List"
            [("Self Service Content", "Eq", fpn), ("Autostage", "Eq", "Yes")]
            fun is_app_autostage =>
              Prog.update "Jamf Test Coordination" "Release Completed" "Yes"
                [("Self Service Content Name", "Eq", ssn)]
                (if is_app_autostage then
                  Prog.update "Jamf Test Coordination" "Status" "Autostage"
                    [("Self Service Content Name", "Eq", ssn)] next
                else
                  Prog.update "Jamf Test Coordination" "Status" "Done"
                    [("Self Service Content Name", "Eq", ssn)] next)
        else next
      if exact then cont
      else
        Prog.add "Jamf Test Coordination" "Self Service Content Name" ssn
          (Prog.update "Jamf Test Coordination" "Final Content Name" fpn
            [("Self Service Content Name", "Eq", ssn)] cont)

/-- Flow B, Jamf Test Review section (source lines 754-829). -/
def reviewSectB (fpn ssn jss_url : String) (next : Prog) : Prog :=
  Prog.check "Jamf Test Review" [("Self Service Content Name", "Eq", ssn)]
    fun exact =>
      let cont :=
        if hasSub jss_url "tst" then
          Prog.update "Jamf Test Review" "Release Completed TST" "Yes"
            [("Self Service Content Name", "Eq", ssn)]
            (Prog.update "Jamf Test Review" "Ready for Production" "Yes"
              [("Self Service Content Name", "Eq", ssn)] next)
        else if hasSub jss_url "prd" then
          Prog.update "Jamf Test Review" "Release Completed PRD" "Yes"
            [("Self Service Content Name", "Eq", ssn)] next
        else next
      if exact then cont
      else
        Prog.add "Jamf Test Review" "Self Service Content Name" ssn
          (Prog.update "Jamf Test Review" "Final Content Name" fpn
            [("Self Service Content Name", "Eq", ssn)] cont)

/-- Flow B, Jamf Content List section, production tier only (source
lines 831-890). -/
def contentSectB (fpn ssn version sp_url jss_url : String) (next : Prog) : Prog :=
  if hasSub jss_url "prd" then
    Prog.check "Jamf Content List" [("Self Service Content", "Eq", fpn)]
      fun app_in_content_list =>
        let updates :=
          Prog.update "Jamf Content List" "Untested Version" ""
            [("Self Service Content", "Eq", fpn)]
            (Prog.update "Jamf Content List" "Prod. Version" version
              [("Self Service Content", "Eq", fpn)]
              (Prog.update "Jamf Content List" "Test Report"
                (test_report_url sp_url ssn ++ ", Test Report")
                [("Self Service Content", "Eq", fpn)] next))
        if app_in_content_list then updates
        else Prog.add "Jamf Content List" "Self Service Content" fpn updates
  else next

/-- The whole of `main` (source lines 190-890) as a program tree: Flow A
when no final policy name is supplied (and only on a production-equivalent
server), Flow B otherwise. -/
def mainProg (cfg : Config) : Prog :=
  if cfg.selfservice_policy_name = "" then
    if hasSub cfg.jss_url "prd" then
      let fpn := finalPolicyName cfg.name cfg.major_version cfg.language cfg.license
        cfg.platform
      let ssn := selfServicePolicyName fpn cfg.version
      Prog.connect
        (contentSectA fpn cfg.version cfg.category
          (autostageCheckA fpn fun is_app_autostage =>
            coordSectA fpn ssn is_app_autostage
              (reviewSectA fpn ssn cfg.executable_command cfg.process_name Prog.done)))
    else Prog.done
  else
    let fpn := cfg.selfservice_policy_name
    let ssn := selfServicePolicyName fpn cfg.version
    Prog.connect
      (coordSectB fpn ssn cfg.jss_url
        (reviewSectB fpn ssn cfg.jss_url
          (contentSectB fpn ssn cfg.version cfg.sp_url cfg.jss_url Prog.done)))

/-- Running `main` to completion from a given list state. -/
def mainRun (cfg : Config) (s : SPState) : SPState :=
  run (mainProg cfg) s

/-- Errors a run can surface with (spec section 7). -/
inductive ProcErr where
  | configurationError
  | authenticationError
  | remoteOperationError
deriving DecidableEq

/-- Outcome of a full processor invocation: the final list state and the
error it surfaced, if any. -/
structure RunOutcome where
  state : SPState
  err : Option ProcErr
deriving DecidableEq

/-- The input variables declared `required` in the processor's
`input_variables` table are all present (non-empty). -/
def requiredInputsPresent (cfg : Config) : Bool :=
  !(cfg.jss_url == "") && !(cfg.sp_url == "") && !(cfg.sp_user == "") &&
    !(cfg.sp_pass == "") && !(cfg.category == "") && !(cfg.name == "") &&
    !(cfg.version == "")

/-- Modelled from the spec: the enclosing plugin lifecycle (the autopkg
processor harness, not part of this repository's sources) validates the
inputs declared `required` in `input_variables` and raises a
configuration error before `main` issues any remote call; otherwise it
runs `main` to completion. -/
def runProcessor (cfg : Config) (s : SPState) : RunOutcome :=
  if requiredInputsPresent cfg then { state := mainRun cfg s, err := none }
  else { state := s, err := some ProcErr.configurationError }

/-- Satisfaction of one criterion `(key, operand, value)` by a record. -/
def satCrit (r : Record) (t : String × String × String) : Bool :=
  evalPred r t.2.1 t.1 t.2.2

/-- One optional name segment per the spec's formula: empty input
contributes nothing, a non-empty input contributes a space and itself. -/
def optSeg (s : String) : String := if s = "" then "" else " " ++ s

/-- The spec's stated contract for the final policy name, written from the
spec's words (section 4.1) for comparison with the source's
`finalPolicyName`. -/
def specFinalPolicyName (name major lang lic plat : String) : String :=
  name ++ optSeg major ++ optSeg lang ++ optSeg lic ++ optSeg plat

/-- Empty initial store, used by concrete witnesses. -/
def emptyState : SPState := ⟨[], [], []⟩

/-- A fully populated Flow A configuration, used by concrete witnesses. -/
def cfgBase : Config :=
  { policy_category := "Untested", category := "Apps", version := "1.0", name := "Foo",
    selfservice_policy_name := "", language := "", license := "", major_version := "",
    platform := "", executable_command := "cmd", process_name := "proc",
    jss_url := "https://jamf.prd.example.com", sp_url := "https://sp.example.com",
    sp_user := "user", sp_pass := "pass" }

/-- Concrete Flow B configuration used by witnesses. -/
def cfgFlowB : Config := { cfgBase with selfservice_policy_name := "Foo" }

/-- Concrete Flow B test-tier configuration used by witnesses. -/
def cfgFlowBtst : Config :=
  { cfgBase with
    selfservice_policy_name := "Foo"
    jss_url := "https://jamf.tst.example.com" }

/-- Concrete store with an autostage content entry, used by witnesses. -/
def stateAuto : SPState :=
  ⟨[[("Self Service Content", "Foo"), ("Autostage", "Yes")]], [], []⟩

/-- Flow-A configuration for a later version of the same product. -/
def cfgV2 : Config := { cfgBase with version := "2.0" }

/-- Store holding two unreleased coordination entries for the same final
content name: an older version and the exact entry for the current run. -/
def c1state : SPState :=
  ⟨[],
   [[("Self Service Content Name", "Foo (Testing) v1.0"),
     ("Final Content Name", "Foo"),
     ("Release Completed", "No"), ("Status", "In progress")],
    [("Self Service Content Name", "Foo (Testing) v2.0"),
     ("Final Content Name", "Foo"),
     ("Release Completed", "No"), ("Status", "In progress")]],
   []⟩

/-- Store holding only stale unreleased entries for an older version and
no entry keyed by the current self-service policy name. -/
def c1fresh : SPState :=
  ⟨[],
   [[("Self Service Content Name", "Foo (Testing) v0.9"),
     ("Final Content Name", "Foo"),
     ("Release Completed", "No"), ("Status", "In progress")]],
   [[("Self Service Content Name", "Foo (Testing) v0.9"),
     ("Final Content Name", "Foo"), ("Release Completed TST", "No")]]⟩

/-! ### Record-level lemmas -/

@[simp] theorem getField_nil (k : String) : getField [] k = "" := rfl

theorem getField_cons (p : String × String) (l : Record) (k : String) :
    getField (p :: l) k = if p.1 == k then p.2 else getField l k := by
  by_cases h : p.1 == k <;> simp [getField, List.find?_cons, h]

theorem getField_map_self {l : Record} {k : String} (v : String)
    (h : l.any (fun p => p.1 == k) = true) :
    getField (l.map fun p => if p.1 == k then (k, v) else p) k = v := by
  induction l with
  | nil => simp at h
  | cons p l ih =>
      by_cases hp : p.1 = k
      · simp [getField_cons, hp]
      · have h' : l.any (fun p => p.1 == k) = true := by
          simp only [List.any_cons] at h
          simpa [hp] using h
        have hpb : ¬((p.1 == k) = true) := by simpa using hp
        simp only [List.map_cons, getField_cons, if_neg hpb]
        exact ih h'

theorem getField_map_ne {k k' : String} (l : Record) (v : String) (h : k' ≠ k) :
    getField (l.map fun p => if p.1 == k then (k, v) else p) k' = getField l k' := by
  induction l with
  | nil => simp
  | cons p l ih =>
      by_cases hp : p.1 = k
      · simp [getField_cons, hp, Ne.symm h]
        simpa using ih
      · by_cases hp' : p.1 = k'
        · simp [getField_cons, hp, hp', h]
        · simp [getField_cons, hp, hp']
          simpa using ih

theorem getField_append_single_self {l : Record} {k : String} (v : String)
    (h : l.any (fun p => p.1 == k) = false) :
    getField (l ++ [(k, v)]) k = v := by
  induction l with
  | nil => simp [getField_cons]
  | cons p l ih =>
      simp only [List.any_cons, Bool.or_eq_false_iff] at h
      have hp : ¬(p.1 = k) := by simpa using h.1
      simp [getField_cons, hp, ih h.2]

theorem getField_append_single_ne {k k' : String} (l : Record) (v : String) (h : k' ≠ k) :
    getField (l ++ [(k, v)]) k' = getField l k' := by
  induction l with
  | nil => simp [getField_cons, Ne.symm h]
  | cons p l ih => by_cases hp : p.1 = k' <;> simp [getField_cons, hp, ih]

theorem getField_setField_self (r : Record) (k v : String) :
    getField (setField r k v) k = v := by
  rw [setField]
  split
  · next hr => exact getField_map_self v hr
  · next hr => exact getField_append_single_self v (Bool.eq_false_iff.2 hr)

theorem getField_setField_ne (r : Record) {k k' : String} (v : String) (h : k' ≠ k) :
    getField (setField r k v) k' = getField r k' := by
  rw [setField]
  split
  · exact getField_map_ne r v h
  · exact getField_append_single_ne r v h

theorem any_congr {α : Type} {l : List α} {p q : α → Bool} (h : ∀ a ∈ l, p a = q a) :
    l.any p = l.any q := by
  induction l with
  | nil => rfl
  | cons a l ih =>
      simp only [List.any_cons, h a (List.mem_cons_self a l)]
      rw [ih fun a ha => h a (List.mem_cons_of_mem _ ha)]

theorem all_congr {α : Type} {l : List α} {p q : α → Bool} (h : ∀ a ∈ l, p a = q a) :
    l.all p = l.all q := by
  induction l with
  | nil => rfl
  | cons a l ih =>
      simp only [List.all_cons, h a (List.mem_cons_self a l)]
      rw [ih fun a ha => h a (List.mem_cons_of_mem _ ha)]

theorem map_id_of {α : Type} {l : List α} {f : α → α} (h : ∀ a ∈ l, f a = a) :
    l.map f = l := by
  induction l with
  | nil => rfl
  | cons a l ih =>
      simp only [List.map_cons, h a (List.mem_cons_self a l)]
      rw [ih fun a ha => h a (List.mem_cons_of_mem _ ha)]

theorem fieldSetTo_setField_self (r : Record) (k v : String) :
    fieldSetTo (setField r k v) k v = true := by
  rw [setField]
  split
  · next hr =>
      rw [fieldSetTo, Bool.and_eq_true, List.any_map, List.all_map]
      constructor
      · rcases List.any_eq_true.1 hr with ⟨p, hp, hpk⟩
        refine List.any_eq_true.2 ⟨p, hp, ?_⟩
        have hp1 : p.1 = k := by simpa using hpk
        simp [Function.comp, hp1]
      · refine List.all_eq_true.2 fun p hp => ?_
        by_cases hpk : p.1 = k <;> simp [Function.comp, hpk]
  · next hr =>
      have hr' : r.any (fun p => p.1 == k) = false := Bool.eq_false_iff.2 hr
      rw [fieldSetTo, Bool.and_eq_true, List.any_append, List.all_append]
      refine ⟨by simp, ?_⟩
      rw [Bool.and_eq_true]
      refine ⟨?_, by simp⟩
      refine List.all_eq_true.2 fun p hp => ?_
      have hp1 : ¬(p.1 = k) := by
        intro hc
        have hx : r.any (fun p => p.1 == k) = true :=
          List.any_eq_true.2 ⟨p, hp, by simp [hc]⟩
        rw [hx] at hr'
        exact Bool.noConfusion hr'
      simp [hp1]

theorem fieldSetTo_setField_ne (r : Record) {k k' : String} (v v' : String) (h : k' ≠ k) :
    fieldSetTo (setField r k v) k' v' = fieldSetTo r k' v' := by
  have hkk : (k == k') = false := by simpa using Ne.symm h
  rw [setField]
  split
  · rw [fieldSetTo, fieldSetTo, List.any_map, List.all_map]
    congr 1
    · refine any_congr fun p _ => ?_
      by_cases hp : p.1 = k
      · simp [Function.comp, hp, hkk]
      · simp [Function.comp, hp]
    · refine all_congr fun p _ => ?_
      by_cases hp : p.1 = k
      · simp [Function.comp, hp, hkk]
      · simp [Function.comp, hp]
  · rw [fieldSetTo, fieldSetTo, List.any_append, List.all_append]
    simp [hkk]

theorem setField_eq_of_fieldSetTo {r : Record} {k v : String}
    (h : fieldSetTo r k v = true) : setField r k v = r := by
  rw [fieldSetTo, Bool.and_eq_true] at h
  obtain ⟨hany, hall⟩ := h
  have hall' := List.all_eq_true.1 hall
  rw [setField, if_pos hany]
  refine map_id_of fun p hp => ?_
  by_cases hpk : p.1 = k
  · have h2 : p.2 = v := by simpa [hpk] using hall' p hp
    have : (k, v) = p := Prod.ext hpk.symm h2.symm
    simp [hpk, this]
  · simp [hpk]

theorem map_eq_map_of {α β : Type} {l : List α} {f g : α → β} (h : ∀ a ∈ l, f a = g a) :
    l.map f = l.map g := by
  induction l with
  | nil => rfl
  | cons a l ih =>
      simp only [List.map_cons, h a (List.mem_cons_self a l)]
      rw [ih fun a ha => h a (List.mem_cons_of_mem _ ha)]

theorem getField_of_fieldSetTo {r : Record} {k v : String}
    (h : fieldSetTo r k v = true) : getField r k = v := by
  induction r with
  | nil => rw [fieldSetTo] at h; simp at h
  | cons p l ih =>
      rw [fieldSetTo, Bool.and_eq_true] at h
      obtain ⟨hany, hall⟩ := h
      have hall' := List.all_eq_true.1 hall
      by_cases hpk : p.1 = k
      · have h2 : p.2 = v := by simpa [hpk] using hall' p (List.mem_cons_self p l)
        simp [getField_cons, hpk, h2]
      · rw [getField_cons, if_neg (by simpa using hpk)]
        apply ih
        rw [fieldSetTo, Bool.and_eq_true]
        refine ⟨by simpa [hpk] using hany, List.all_eq_true.2 fun q hq =>
          hall' q (List.mem_cons_of_mem _ hq)⟩

/-! ### Query-builder lemmas -/

theorem evalWhere_and_cons (r : Record) (operand key value : String) (l : List QTok) :
    evalWhere r (QTok.op "And" :: QTok.cmp operand key value :: l) =
      (evalPred r operand key value && evalWhere r l) := rfl

theorem evalWhere_chain (r : Record) (cs : Criteria) (l : List QTok) :
    evalWhere r ((whereTokens false cs).reverse ++ l) =
      (cs.all (satCrit r) && evalWhere r l) := by
  induction cs generalizing l with
  | nil => simp [whereTokens]
  | cons c rest ih =>
      obtain ⟨key, operand, value⟩ := c
      have hshape : whereTokens false ((key, operand, value) :: rest) =
          [QTok.cmp operand key value, QTok.op "And"] ++ whereTokens false rest := by
        simp [whereTokens]
      rw [hshape, List.reverse_append, List.append_assoc, ih]
      have : ([QTok.cmp operand key value, QTok.op "And"].reverse ++ l) =
          QTok.op "And" :: QTok.cmp operand key value :: l := by simp
      rw [this, evalWhere_and_cons]
      simp [satCrit, List.all_cons, Bool.and_assoc, Bool.and_comm, Bool.and_left_comm]

theorem recordMatches_all (c : Criteria) (r : Record) :
    recordMatches c r = c.all (satCrit r) := by
  cases c with
  | nil => rfl
  | cons t rest =>
      obtain ⟨key, operand, value⟩ := t
      have hshape : (whereTokens true ((key, operand, value) :: rest)).reverse =
          (whereTokens false rest).reverse ++ [QTok.cmp operand key value] := by
        simp [whereTokens]
      rw [recordMatches, build_query]
      simp only [hshape]
      rw [evalWhere_chain]
      show (rest.all (satCrit r) && evalPred r operand key value) = _
      simp [satCrit, List.all_cons, Bool.and_comm]

theorem recordMatches_one (k v : String) (r : Record) :
    recordMatches [(k, "Eq", v)] r = (getField r k == v) := by
  simp [recordMatches_all, satCrit, evalPred]

theorem recordMatches_two (k1 v1 k2 v2 : String) (r : Record) :
    recordMatches [(k1, "Eq", v1), (k2, "Eq", v2)] r =
      ((getField r k1 == v1) && (getField r k2 == v2)) := by
  simp [recordMatches_all, satCrit, evalPred]

theorem recordMatches_two_neq (k1 v1 k2 v2 : String) (r : Record) :
    recordMatches [(k1, "Eq", v1), (k2, "Neq", v2)] r =
      ((getField r k1 == v1) && !(getField r k2 == v2)) := by
  simp [recordMatches_all, satCrit, evalPred]

theorem recordMatches_three (k1 v1 k2 v2 k3 v3 : String) (r : Record) :
    recordMatches [(k1, "Eq", v1), (k2, "Eq", v2), (k3, "Eq", v3)] r =
      ((getField r k1 == v1) && ((getField r k2 == v2) && (getField r k3 == v3))) := by
  simp [recordMatches_all, satCrit, evalPred]

theorem recordMatches_three_neq (k1 v1 k2 v2 k3 v3 : String) (r : Record) :
    recordMatches [(k1, "Eq", v1), (k2, "Eq", v2), (k3, "Neq", v3)] r =
      ((getField r k1 == v1) && ((getField r k2 == v2) && !(getField r k3 == v3))) := by
  simp [recordMatches_all, satCrit, evalPred]

/-! ### List-operation lemmas -/

theorem anyMatch_iff (l : List Record) (c : Criteria) :
    anyMatch l c = true ↔ ∃ r ∈ l, recordMatches c r = true := by
  simp [anyMatch, List.any_eq_true]

theorem anyMatch_false (l : List Record) (c : Criteria) :
    anyMatch l c = false ↔ ∀ r ∈ l, recordMatches c r = false := by
  constructor
  · intro h r hr
    by_contra hc
    have hm : recordMatches c r = true := by
      cases hx : recordMatches c r
      · exact absurd hx hc
      · rfl
    rw [(anyMatch_iff l c).2 ⟨r, hr, hm⟩] at h
    exact Bool.noConfusion h
  · intro h
    cases hx : anyMatch l c
    · rfl
    · rcases (anyMatch_iff l c).1 hx with ⟨r, hr, hm⟩
      rw [h r hr] at hm
      exact Bool.noConfusion hm

theorem mem_updList {c : Criteria} {k v : String} {l : List Record} {r' : Record} :
    r' ∈ updList c k v l ↔
      ∃ r ∈ l, (if recordMatches c r then setField r k v else r) = r' := by
  simp [updList, List.mem_map]

theorem mem_updList_of_mem {c : Criteria} {k v : String} {l : List Record} {r : Record}
    (h : r ∈ l) :
    (if recordMatches c r then setField r k v else r) ∈ updList c k v l :=
  mem_updList.2 ⟨r, h, rfl⟩

theorem updList_eq_self {c : Criteria} {k v : String} {l : List Record}
    (h : ∀ r ∈ l, recordMatches c r = true → setField r k v = r) :
    updList c k v l = l := by
  refine map_id_of fun r hr => ?_
  by_cases hm : recordMatches c r = true
  · rw [if_pos hm]; exact h r hr hm
  · rw [if_neg hm]

theorem updList_of_noMatch {c : Criteria} (k v : String) {l : List Record}
    (h : anyMatch l c = false) : updList c k v l = l := by
  refine updList_eq_self fun r hr hm => ?_
  rw [(anyMatch_false l c).1 h r hr] at hm
  exact Bool.noConfusion hm

theorem updList_map_getField {c : Criteria} {k v : String} (k' : String) (l : List Record)
    (h : k' ≠ k) :
    (updList c k v l).map (fun r => getField r k') = l.map (fun r => getField r k') := by
  rw [updList, List.map_map]
  refine map_eq_map_of fun r hr => ?_
  by_cases hm : recordMatches c r = true
  · simp only [Function.comp, if_pos hm]
    exact getField_setField_ne r v h
  · simp only [Function.comp, if_neg hm]

theorem mem_delList {c : Criteria} {l : List Record} {r : Record} :
    r ∈ delList c l ↔ r ∈ l ∧ recordMatches c r = false := by
  simp only [delList, List.mem_filter, Bool.not_eq_true']

/-! ### Per-list unfoldings of the store operations -/

theorem check_list_CL (s : SPState) (c : Criteria) :
    check_list s "Jamf Content List" c = anyMatch s.contentList c := rfl

theorem check_list_TC (s : SPState) (c : Criteria) :
    check_list s "Jamf Test Coordination" c = anyMatch s.testCoord c := rfl

theorem check_list_TR (s : SPState) (c : Criteria) :
    check_list s "Jamf Test Review" c = anyMatch s.testReview c := rfl

theorem update_record_CL (s : SPState) (k v : String) (c : Criteria) :
    update_record s "Jamf Content List" k v c =
      { s with contentList := updList c k v s.contentList } := rfl

theorem update_record_TC (s : SPState) (k v : String) (c : Criteria) :
    update_record s "Jamf Test Coordination" k v c =
      { s with testCoord := updList c k v s.testCoord } := rfl

theorem update_record_TR (s : SPState) (k v : String) (c : Criteria) :
    update_record s "Jamf Test Review" k v c =
      { s with testReview := updList c k v s.testReview } := rfl

theorem add_record_CL (s : SPState) (k v : String) :
    add_record s "Jamf Content List" k v =
      { s with contentList := s.contentList ++ [[(k, v)]] } := rfl

theorem add_record_TC (s : SPState) (k v : String) :
    add_record s "Jamf Test Coordination" k v =
      { s with testCoord := s.testCoord ++ [[(k, v)]] } := rfl

theorem add_record_TR (s : SPState) (k v : String) :
    add_record s "Jamf Test Review" k v =
      { s with testReview := s.testReview ++ [[(k, v)]] } := rfl

theorem delete_record_TR (s : SPState) (c : Criteria) :
    delete_record s "Jamf Test Review" c =
      { s with testReview := delList c s.testReview } := rfl

/-! ### Program-tree lemmas -/

@[simp] theorem run_done (s : SPState) : run Prog.done s = s := rfl

@[simp] theorem run_connect (k : Prog) (s : SPState) :
    run (Prog.connect k) s = run k s := rfl

@[simp] theorem run_check (l : String) (c : Criteria) (k : Bool → Prog) (s : SPState) :
    run (Prog.check l c k) s = run (k (check_list s l c)) s := rfl

@[simp] theorem run_update (l key v : String) (c : Criteria) (k : Prog) (s : SPState) :
    run (Prog.update l key v c k) s = run k (update_record s l key v c) := rfl

@[simp] theorem run_add (l key v : String) (k : Prog) (s : SPState) :
    run (Prog.add l key v k) s = run k (add_record s l key v) := rfl

@[simp] theorem run_delete (l : String) (c : Criteria) (k : Prog) (s : SPState) :
    run (Prog.delete l c k) s = run k (delete_record s l c) := rfl

@[simp] theorem applyCalls_nil (s : SPState) : applyCalls [] s = s := rfl

@[simp] theorem applyCalls_cons (c : Call) (cs : List Call) (s : SPState) :
    applyCalls (c :: cs) s = applyCalls cs (applyCall s c) := rfl

theorem run_eq_applyCalls (p : Prog) (s : SPState) :
    run p s = applyCalls (callTrace p s) s := by
  induction p generalizing s with
  | done => rfl
  | connect k ih => simpa [callTrace, applyCall] using ih s
  | check l c k ih => simpa [callTrace, applyCall] using ih (check_list s l c) s
  | update l key v c k ih =>
      simpa [callTrace, applyCall] using ih (update_record s l key v c)
  | add l key v k ih => simpa [callTrace, applyCall] using ih (add_record s l key v)
  | delete l c k ih => simpa [callTrace, applyCall] using ih (delete_record s l c)

theorem runBudget_eq_take (p : Prog) (s : SPState) (n : Nat) :
    runBudget p s n = applyCalls ((callTrace p s).take n) s := by
  induction p generalizing s n with
  | done => simp [runBudget, callTrace]
  | connect k ih =>
      cases n with
      | zero => simp [runBudget, callTrace]
      | succ n => simpa [runBudget, callTrace, applyCall] using ih s n
  | check l c k ih =>
      cases n with
      | zero => simp [runBudget, callTrace]
      | succ n => simpa [runBudget, callTrace, applyCall] using ih (check_list s l c) s n
  | update l key v c k ih =>
      cases n with
      | zero => simp [runBudget, callTrace]
      | succ n =>
          simpa [runBudget, callTrace, applyCall] using ih (update_record s l key v c) n
  | add l key v k ih =>
      cases n with
      | zero => simp [runBudget, callTrace]
      | succ n => simpa [runBudget, callTrace, applyCall] using ih (add_record s l key v) n
  | delete l c k ih =>
      cases n with
      | zero => simp [runBudget, callTrace]
      | succ n => simpa [runBudget, callTrace, applyCall] using ih (delete_record s l c) n

/-! ### Key-field helper lemmas -/

theorem anyMatch_one_true {key val : String} {l : List Record}
    (h : anyMatch l [(key, "Eq", val)] = true) :
    ∃ r ∈ l, getField r key = val := by
  rcases (anyMatch_iff l _).1 h with ⟨r, hr, hm⟩
  rw [recordMatches_one] at hm
  exact ⟨r, hr, by simpa using hm⟩

theorem anyMatch_one_false {key val : String} {l : List Record}
    (h : anyMatch l [(key, "Eq", val)] = false) :
    ∀ r ∈ l, getField r key ≠ val := by
  intro r hr
  have hm := (anyMatch_false l _).1 h r hr
  rw [recordMatches_one] at hm
  simpa using hm

theorem exists_key_updList {c : Criteria} {k v key val : String} {l : List Record}
    (h : ∃ r ∈ l, getField r key = val) (hkey : key ≠ k) :
    ∃ r ∈ updList c k v l, getField r key = val := by
  obtain ⟨r, hr, hval⟩ := h
  refine ⟨_, mem_updList_of_mem hr, ?_⟩
  by_cases hm : recordMatches c r = true
  · rw [if_pos hm, getField_setField_ne r v hkey]
    exact hval
  · rw [if_neg hm]
    exact hval

theorem exists_key_append {key val : String} (l : List Record) {r0 : Record}
    (h : getField r0 key = val) : ∃ r ∈ l ++ [r0], getField r key = val :=
  ⟨r0, by simp, h⟩

theorem updList_key_establish {k v key val : String} {l : List Record} :
    ∀ r ∈ updList [(key, "Eq", val)] k v l, getField r key = val → getField r k = v := by
  intro r' hr' hval
  rcases mem_updList.1 hr' with ⟨r, hr, heq⟩
  by_cases hm : recordMatches [(key, "Eq", val)] r = true
  · rw [if_pos hm] at heq
    rw [← heq]
    exact getField_setField_self r k v
  · rw [if_neg hm] at heq
    subst heq
    rw [recordMatches_one] at hm
    exact absurd hval (by simpa using hm)

theorem updList_key_preserve {c : Criteria} {k v k2 v2 key val : String} {l : List Record}
    (hkey : key ≠ k) (hk2 : k2 ≠ k)
    (h : ∀ r ∈ l, getField r key = val → getField r k2 = v2) :
    ∀ r ∈ updList c k v l, getField r key = val → getField r k2 = v2 := by
  intro r' hr' hval
  rcases mem_updList.1 hr' with ⟨r, hr, heq⟩
  by_cases hm : recordMatches c r = true
  · rw [if_pos hm] at heq
    subst heq
    rw [getField_setField_ne r v hkey] at hval
    rw [getField_setField_ne r v hk2]
    exact h r hr hval
  · rw [if_neg hm] at heq
    subst heq
    exact h r hr hval

theorem append_key_preserve {key val k2 v2 : String} {l : List Record} {r0 : Record}
    (h : ∀ r ∈ l, getField r key = val → getField r k2 = v2)
    (h0 : getField r0 key = val → getField r0 k2 = v2) :
    ∀ r ∈ l ++ [r0], getField r key = val → getField r k2 = v2 := by
  intro r hr
  rcases List.mem_append.1 hr with hr | hr
  · exact h r hr
  · rw [List.mem_singleton] at hr
    subst hr
    exact h0

/-! ### Generic record-list transport lemmas -/

theorem updList_pres_prop_match {c : Criteria} {k v : String} {P : Record → Prop}
    {l : List Record}
    (hmatch : ∀ r ∈ l, recordMatches c r = true → P (setField r k v))
    (hkeep : ∀ r ∈ l, recordMatches c r = false → P r) :
    ∀ r ∈ updList c k v l, P r := by
  intro r' hr'
  rcases mem_updList.1 hr' with ⟨r, hr, heq⟩
  by_cases hm : recordMatches c r = true
  · rw [if_pos hm] at heq
    subst heq
    exact hmatch r hr hm
  · rw [if_neg hm] at heq
    subst heq
    exact hkeep r hr (Bool.eq_false_iff.2 hm)

theorem updList_pres_prop {c : Criteria} {k v : String} {P : Record → Prop}
    {l : List Record} (hP : ∀ r, P r → P (setField r k v)) (h : ∀ r ∈ l, P r) :
    ∀ r ∈ updList c k v l, P r :=
  updList_pres_prop_match (fun r hr _ => hP r (h r hr)) (fun r hr _ => h r hr)

theorem append_prop {P : Record → Prop} {l : List Record} {r0 : Record}
    (h : ∀ r ∈ l, P r) (h0 : P r0) : ∀ r ∈ l ++ [r0], P r := by
  intro r hr
  rcases List.mem_append.1 hr with hr | hr
  · exact h r hr
  · rw [List.mem_singleton] at hr
    subst hr
    exact h0

theorem delList_prop {c : Criteria} {P : Record → Prop} {l : List Record}
    (h : ∀ r ∈ l, P r) : ∀ r ∈ delList c l, P r := fun r hr =>
  h r (mem_delList.1 hr).1

theorem setField_setField_same (r : Record) (k v : String) :
    setField (setField r k v) k v = setField r k v :=
  setField_eq_of_fieldSetTo (fieldSetTo_setField_self r k v)

/-! ### anyMatch conversion and stability lemmas -/

theorem anyMatch_one_of {key val : String} {l : List Record}
    (h : ∃ r ∈ l, getField r key = val) : anyMatch l [(key, "Eq", val)] = true := by
  obtain ⟨r, hr, hval⟩ := h
  refine (anyMatch_iff l _).2 ⟨r, hr, ?_⟩
  rw [recordMatches_one]
  simp [hval]

theorem anyMatch_two_false {k1 v1 k2 v2 : String} {l : List Record}
    (h : anyMatch l [(k1, "Eq", v1), (k2, "Eq", v2)] = false) :
    ∀ r ∈ l, getField r k1 = v1 → getField r k2 ≠ v2 := by
  intro r hr h1 h2
  have hm := (anyMatch_false l _).1 h r hr
  rw [recordMatches_two] at hm
  simp [h1, h2] at hm

theorem anyMatch_two_false_of {k1 v1 k2 v2 : String} {l : List Record}
    (h : ∀ r ∈ l, getField r k1 = v1 → getField r k2 ≠ v2) :
    anyMatch l [(k1, "Eq", v1), (k2, "Eq", v2)] = false := by
  refine (anyMatch_false l _).2 fun r hr => ?_
  rw [recordMatches_two]
  by_cases h1 : getField r k1 = v1
  · simp [h1, h r hr h1]
  · simp [h1]

theorem anyMatch_two_neq_false_of {k1 v1 k2 v2 : String} {l : List Record}
    (h : ∀ r ∈ l, getField r k1 = v1 → getField r k2 = v2) :
    anyMatch l [(k1, "Eq", v1), (k2, "Neq", v2)] = false := by
  refine (anyMatch_false l _).2 fun r hr => ?_
  rw [recordMatches_two_neq]
  by_cases h1 : getField r k1 = v1
  · simp [h1, h r hr h1]
  · simp [h1]

theorem anyMatch_three_false_of {k1 v1 k2 v2 k3 v3 : String} {l : List Record}
    (h : ∀ r ∈ l, getField r k1 = v1 → getField r k2 = v2 → getField r k3 ≠ v3) :
    anyMatch l [(k1, "Eq", v1), (k2, "Eq", v2), (k3, "Eq", v3)] = false := by
  refine (anyMatch_false l _).2 fun r hr => ?_
  rw [recordMatches_three]
  by_cases h1 : getField r k1 = v1
  · by_cases h2 : getField r k2 = v2
    · simp [h1, h2, h r hr h1 h2]
    · simp [h1, h2]
  · simp [h1]

theorem anyMatch_one_updList {c : Criteria} {k v k1 v1 : String} {l : List Record}
    (h1 : k1 ≠ k) :
    anyMatch (updList c k v l) [(k1, "Eq", v1)] = anyMatch l [(k1, "Eq", v1)] := by
  rw [anyMatch, anyMatch, updList, List.any_map]
  refine any_congr fun r _ => ?_
  by_cases hm : recordMatches c r = true
  · simp only [Function.comp, if_pos hm]
    rw [recordMatches_one, recordMatches_one, getField_setField_ne r v h1]
  · simp only [Function.comp, if_neg hm]

theorem anyMatch_two_updList {c : Criteria} {k v k1 v1 k2 v2 : String} {l : List Record}
    (h1 : k1 ≠ k) (h2 : k2 ≠ k) :
    anyMatch (updList c k v l) [(k1, "Eq", v1), (k2, "Eq", v2)] =
      anyMatch l [(k1, "Eq", v1), (k2, "Eq", v2)] := by
  rw [anyMatch, anyMatch, updList, List.any_map]
  refine any_congr fun r _ => ?_
  by_cases hm : recordMatches c r = true
  · simp only [Function.comp, if_pos hm]
    rw [recordMatches_two, recordMatches_two, getField_setField_ne r v h1,
      getField_setField_ne r v h2]
  · simp only [Function.comp, if_neg hm]

theorem anyMatch_append_nomatch {cr : Criteria} {l : List Record} {r0 : Record}
    (h0 : recordMatches cr r0 = false) :
    anyMatch (l ++ [r0]) cr = anyMatch l cr := by
  rw [anyMatch, anyMatch, List.any_append]
  simp [h0]

/-! ### updList establish lemmas for compound criteria -/

theorem updList_two_clears {k1 v1 k2 v2 w : String} {l : List Record} (hw : w ≠ v2) :
    ∀ r ∈ updList [(k1, "Eq", v1), (k2, "Eq", v2)] k2 w l,
      getField r k1 = v1 → getField r k2 ≠ v2 := by
  intro r' hr' h1
  rcases mem_updList.1 hr' with ⟨r, hr, heq⟩
  by_cases hm : recordMatches [(k1, "Eq", v1), (k2, "Eq", v2)] r = true
  · rw [if_pos hm] at heq
    subst heq
    rw [getField_setField_self]
    exact hw
  · rw [if_neg hm] at heq
    subst heq
    rw [recordMatches_two] at hm
    intro h2
    exact hm (by simp [h1, h2])

theorem updList_neq_establish {k1 v1 k2 v2 : String} {l : List Record} :
    ∀ r ∈ updList [(k1, "Eq", v1), (k2, "Neq", v2)] k2 v2 l,
      getField r k1 = v1 → getField r k2 = v2 := by
  intro r' hr' h1
  rcases mem_updList.1 hr' with ⟨r, hr, heq⟩
  by_cases hm : recordMatches [(k1, "Eq", v1), (k2, "Neq", v2)] r = true
  · rw [if_pos hm] at heq
    subst heq
    rw [getField_setField_self]
  · rw [if_neg hm] at heq
    subst heq
    rw [recordMatches_two_neq] at hm
    by_cases h2 : getField r k2 = v2
    · exact h2
    · exact absurd (by simp [h1, h2]) hm

theorem updList_three_neq_establish {k1 v1 k2 v2 k3 v3 : String} {l : List Record} :
    ∀ r ∈ updList [(k1, "Eq", v1), (k2, "Eq", v2), (k3, "Neq", v3)] k3 v3 l,
      getField r k1 = v1 → getField r k2 = v2 → getField r k3 = v3 := by
  intro r' hr' h1 h2
  rcases mem_updList.1 hr' with ⟨r, hr, heq⟩
  by_cases hm : recordMatches [(k1, "Eq", v1), (k2, "Eq", v2), (k3, "Neq", v3)] r = true
  · rw [if_pos hm] at heq
    subst heq
    rw [getField_setField_self]
  · rw [if_neg hm] at heq
    subst heq
    rw [recordMatches_three_neq] at hm
    by_cases h3 : getField r k3 = v3
    · exact h3
    · exact absurd (by simp [h1, h2, h3]) hm

theorem anyMatch_three_neq_false {k1 v1 k2 v2 k3 v3 : String} {l : List Record}
    (h : anyMatch l [(k1, "Eq", v1), (k2, "Eq", v2), (k3, "Neq", v3)] = false) :
    ∀ r ∈ l, getField r k1 = v1 → getField r k2 = v2 → getField r k3 = v3 := by
  intro r hr h1 h2
  have hm := (anyMatch_false l _).1 h r hr
  rw [recordMatches_three_neq] at hm
  by_cases h3 : getField r k3 = v3
  · exact h3
  · rw [h1, h2] at hm
    simp [h3] at hm

theorem updList_three_breaks {k1 v1 k2 v2 k3 v3 w : String} {l : List Record}
    (hw : w ≠ v3) :
    ∀ r ∈ updList [(k1, "Eq", v1), (k2, "Eq", v2), (k3, "Eq", v3)] k3 w l,
      recordMatches [(k1, "Eq", v1), (k2, "Eq", v2), (k3, "Eq", v3)] r = false := by
  intro r' hr'
  rcases mem_updList.1 hr' with ⟨r, hr, heq⟩
  by_cases hm : recordMatches [(k1, "Eq", v1), (k2, "Eq", v2), (k3, "Eq", v3)] r = true
  · rw [if_pos hm] at heq
    subst heq
    rw [recordMatches_three, getField_setField_self]
    simp [hw]
  · rw [if_neg hm] at heq
    subst heq
    exact Bool.eq_false_iff.2 hm

theorem delList_two_false {k1 v1 k2 v2 : String} {l : List Record} :
    ∀ r ∈ delList [(k1, "Eq", v1), (k2, "Eq", v2)] l,
      getField r k1 = v1 → getField r k2 ≠ v2 := by
  intro r hr h1 h2
  have := (mem_delList.1 hr).2
  rw [recordMatches_two] at this
  simp [h1, h2] at this

theorem updList_one_eq_self {key val k v : String} {l : List Record}
    (h : ∀ r ∈ l, getField r key = val → fieldSetTo r k v = true) :
    updList [(key, "Eq", val)] k v l = l := by
  refine updList_eq_self fun r hr hm => ?_
  rw [recordMatches_one] at hm
  exact setField_eq_of_fieldSetTo (h r hr (by simpa using hm))

theorem updList_key_establish_set {k v key val : String} {l : List Record} :
    ∀ r ∈ updList [(key, "Eq", val)] k v l,
      getField r key = val → fieldSetTo r k v = true := by
  intro r' hr' hval
  rcases mem_updList.1 hr' with ⟨r, hr, heq⟩
  by_cases hm : recordMatches [(key, "Eq", val)] r = true
  · rw [if_pos hm] at heq
    rw [← heq]
    exact fieldSetTo_setField_self r k v
  · rw [if_neg hm] at heq
    subst heq
    rw [recordMatches_one] at hm
    exact absurd hval (by simpa using hm)

theorem updList_key_preserve_set {c : Criteria} {k v k2 v2 key val : String}
    {l : List Record} (hkey : key ≠ k) (hk2 : k2 ≠ k)
    (h : ∀ r ∈ l, getField r key = val → fieldSetTo r k2 v2 = true) :
    ∀ r ∈ updList c k v l, getField r key = val → fieldSetTo r k2 v2 = true := by
  intro r' hr' hval
  rcases mem_updList.1 hr' with ⟨r, hr, heq⟩
  by_cases hm : recordMatches c r = true
  · rw [if_pos hm] at heq
    subst heq
    rw [getField_setField_ne r v hkey] at hval
    rw [fieldSetTo_setField_ne r v v2 hk2]
    exact h r hr hval
  · rw [if_neg hm] at heq
    subst heq
    exact h r hr hval

/-! ### Flow B section lemmas -/

theorem coordSectB_run (fpn ssn url : String) (next : Prog) (s : SPState) :
    ∃ tc' : List Record,
      run (coordSectB fpn ssn url next) s = run next { s with testCoord := tc' } ∧
      (∃ r ∈ tc', getField r "Self Service Content Name" = ssn) ∧
      (hasSub url "prd" = true →
        anyMatch s.contentList
            [("Self Service Content", "Eq", fpn), ("Autostage", "Eq", "Yes")] = true →
        ∀ r ∈ tc', getField r "Self Service Content Name" = ssn →
          getField r "Release Completed" = "Yes" ∧ getField r "Status" = "Autostage") := by
  rw [coordSectB, run_check, check_list_TC]
  rcases Bool.eq_false_or_eq_true (hasSub url "prd") with hprd | hprd
  · -- production-equivalent target
    rcases Bool.eq_false_or_eq_true
        (anyMatch s.testCoord [("Self Service Content Name", "Eq", ssn)]) with hex | hex
    · -- entry already present
      simp only [hprd, hex, if_true, run_check, run_update, update_record_TC,
        check_list_CL]
      rcases Bool.eq_false_or_eq_true (anyMatch s.contentList
          [("Self Service Content", "Eq", fpn), ("Autostage", "Eq", "Yes")]) with hauto | hauto
      · simp only [hauto, if_true, run_update, update_record_TC]
        refine ⟨_, rfl, ?_, ?_⟩
        · exact exists_key_updList (exists_key_updList (anyMatch_one_true hex)
            (by decide)) (by decide)
        · intro _ _ r hr hval
          refine ⟨?_, updList_key_establish r hr hval⟩
          refine updList_key_preserve (by decide) (by decide) ?_ r hr hval
          exact updList_key_establish
      · simp only [hauto, Bool.false_eq_true, if_false, run_update, update_record_TC]
        refine ⟨_, rfl, ?_, ?_⟩
        · exact exists_key_updList (exists_key_updList (anyMatch_one_true hex)
            (by decide)) (by decide)
        · intro _ hauto'
          exact hauto'.elim
    · -- entry absent: create, then release
      simp only [hprd, hex, Bool.false_eq_true, if_false, if_true, run_update, run_add,
        run_check, update_record_TC, add_record_TC, check_list_CL]
      rcases Bool.eq_false_or_eq_true (anyMatch s.contentList
          [("Self Service Content", "Eq", fpn), ("Autostage", "Eq", "Yes")]) with hauto | hauto
      · simp only [hauto, if_true, run_update, update_record_TC]
        refine ⟨_, rfl, ?_, ?_⟩
        · exact exists_key_updList (exists_key_updList (exists_key_updList
            (exists_key_append s.testCoord (by simp [getField_cons])) (by decide))
              (by decide)) (by decide)
        · intro _ _ r hr hval
          refine ⟨?_, updList_key_establish r hr hval⟩
          refine updList_key_preserve (by decide) (by decide) ?_ r hr hval
          exact updList_key_establish
      · simp only [hauto, Bool.false_eq_true, if_false, run_update, update_record_TC]
        refine ⟨_, rfl, ?_, ?_⟩
        · exact exists_key_updList (exists_key_updList (exists_key_updList
            (exists_key_append s.testCoord (by simp [getField_cons])) (by decide))
              (by decide)) (by decide)
        · intro _ hauto'
          exact hauto'.elim
  · -- non-production target: upsert only
    rcases Bool.eq_false_or_eq_true
        (anyMatch s.testCoord [("Self Service Content Name", "Eq", ssn)]) with hex | hex
    · simp only [hprd, hex, Bool.false_eq_true, if_false, if_true]
      refine ⟨s.testCoord, rfl, anyMatch_one_true hex, ?_⟩
      intro hprd'
      exact hprd'.elim
    · simp only [hprd, hex, Bool.false_eq_true, if_false, run_update, run_add,
        update_record_TC, add_record_TC]
      refine ⟨_, rfl, ?_, ?_⟩
      · exact exists_key_updList
          (exists_key_append s.testCoord (by simp [getField_cons])) (by decide)
      · intro hprd'
        exact hprd'.elim

theorem reviewSectB_run (fpn ssn url : String) (next : Prog) (s : SPState) :
    ∃ tr' : List Record,
      run (reviewSectB fpn ssn url next) s = run next { s with testReview := tr' } ∧
      (∃ r ∈ tr', getField r "Self Service Content Name" = ssn) ∧
      (hasSub url "tst" = true →
        (∀ r ∈ tr', getField r "Self Service Content Name" = ssn →
          getField r "Release Completed TST" = "Yes" ∧
            getField r "Ready for Production" = "Yes") ∧
        (tr'.map (fun r => getField r "Release Completed PRD") =
            s.testReview.map (fun r => getField r "Release Completed PRD") ∨
          tr'.map (fun r => getField r "Release Completed PRD") =
            s.testReview.map (fun r => getField r "Release Completed PRD") ++ [""])) := by
  rw [reviewSectB, run_check, check_list_TR]
  rcases Bool.eq_false_or_eq_true (hasSub url "tst") with htst | htst
  · -- test tier
    rcases Bool.eq_false_or_eq_true
        (anyMatch s.testReview [("Self Service Content Name", "Eq", ssn)]) with hex | hex
    · simp only [htst, hex, if_true, run_update, update_record_TR]
      refine ⟨_, rfl, ?_, ?_⟩
      · exact exists_key_updList (exists_key_updList (anyMatch_one_true hex)
          (by decide)) (by decide)
      · intro _
        constructor
        · intro r hr hval
          refine ⟨?_, updList_key_establish r hr hval⟩
          refine updList_key_preserve (by decide) (by decide) ?_ r hr hval
          exact updList_key_establish
        · rw [updList_map_getField _ _ (by decide), updList_map_getField _ _ (by decide)]
          exact Or.inl rfl
    · simp only [htst, hex, Bool.false_eq_true, if_false, if_true, run_update, run_add,
        update_record_TR, add_record_TR]
      refine ⟨_, rfl, ?_, ?_⟩
      · exact exists_key_updList (exists_key_updList (exists_key_updList
          (exists_key_append s.testReview (by simp [getField_cons])) (by decide))
            (by decide)) (by decide)
      · intro _
        constructor
        · intro r hr hval
          refine ⟨?_, updList_key_establish r hr hval⟩
          refine updList_key_preserve (by decide) (by decide) ?_ r hr hval
          exact updList_key_establish
        · rw [updList_map_getField _ _ (by decide), updList_map_getField _ _ (by decide),
            updList_map_getField _ _ (by decide)]
          right
          simp [getField_cons]
  · -- not the test tier
    rcases Bool.eq_false_or_eq_true (hasSub url "prd") with hprd | hprd
    · rcases Bool.eq_false_or_eq_true
          (anyMatch s.testReview [("Self Service Content Name", "Eq", ssn)]) with hex | hex
      · simp only [htst, hprd, hex, Bool.false_eq_true, if_false, if_true, run_update,
          update_record_TR]
        refine ⟨_, rfl, ?_, ?_⟩
        · exact exists_key_updList (anyMatch_one_true hex) (by decide)
        · intro htst'
          exact htst'.elim
      · simp only [htst, hprd, hex, Bool.false_eq_true, if_false, if_true, run_update,
          run_add, update_record_TR, add_record_TR]
        refine ⟨_, rfl, ?_, ?_⟩
        · exact exists_key_updList (exists_key_updList
            (exists_key_append s.testReview (by simp [getField_cons])) (by decide))
              (by decide)
        · intro htst'
          exact htst'.elim
    · rcases Bool.eq_false_or_eq_true
          (anyMatch s.testReview [("Self Service Content Name", "Eq", ssn)]) with hex | hex
      · simp only [htst, hprd, hex, Bool.false_eq_true, if_false, if_true]
        refine ⟨s.testReview, rfl, anyMatch_one_true hex, ?_⟩
        intro htst'
        exact htst'.elim
      · simp only [htst, hprd, hex, Bool.false_eq_true, if_false, run_update, run_add,
          update_record_TR, add_record_TR]
        refine ⟨_, rfl, ?_, ?_⟩
        · exact exists_key_updList
            (exists_key_append s.testReview (by simp [getField_cons])) (by decide)
        · intro htst'
          exact htst'.elim

theorem contentSectB_run (fpn ssn ver spu url : String) (next : Prog) (s : SPState) :
    ∃ cl' : List Record,
      run (contentSectB fpn ssn ver spu url next) s =
        run next { s with contentList := cl' } ∧
      (hasSub url "prd" = false → cl' = s.contentList) ∧
      (hasSub url "prd" = true →
        (∃ r ∈ cl', getField r "Self Service Content" = fpn) ∧
        ∀ r ∈ cl', getField r "Self Service Content" = fpn →
          getField r "Untested Version" = "" ∧
          getField r "Prod. Version" = ver ∧
          getField r "Test Report" = test_report_url spu ssn ++ ", Test Report") := by
  rw [contentSectB]
  rcases Bool.eq_false_or_eq_true (hasSub url "prd") with hprd | hprd
  · simp only [hprd, if_true, run_check, check_list_CL]
    rcases Bool.eq_false_or_eq_true
        (anyMatch s.contentList [("Self Service Content", "Eq", fpn)]) with hex | hex
    · simp only [hex, if_true, run_update, update_record_CL]
      refine ⟨_, rfl, ?_, ?_⟩
      · intro hprd'
        exact Bool.noConfusion hprd'
      · intro _
        constructor
        · exact exists_key_updList (exists_key_updList (exists_key_updList
            (anyMatch_one_true hex) (by decide)) (by decide)) (by decide)
        · intro r hr hval
          refine ⟨?_, ?_, updList_key_establish r hr hval⟩
          · refine updList_key_preserve
              (show ("Self Service Content" : String) ≠ "Test Report" by decide)
              (show ("Untested Version" : String) ≠ "Test Report" by decide) ?_ r hr hval
            exact updList_key_preserve
              (show ("Self Service Content" : String) ≠ "Prod. Version" by decide)
              (show ("Untested Version" : String) ≠ "Prod. Version" by decide)
              updList_key_establish
          · refine updList_key_preserve
              (show ("Self Service Content" : String) ≠ "Test Report" by decide)
              (show ("Prod. Version" : String) ≠ "Test Report" by decide) ?_ r hr hval
            exact updList_key_establish
    · simp only [hex, Bool.false_eq_true, if_false, run_update, run_add,
        update_record_CL, add_record_CL]
      refine ⟨_, rfl, ?_, ?_⟩
      · intro hprd'
        exact Bool.noConfusion hprd'
      · intro _
        constructor
        · exact exists_key_updList (exists_key_updList (exists_key_updList
            (exists_key_append s.contentList (by simp [getField_cons])) (by decide))
              (by decide)) (by decide)
        · intro r hr hval
          refine ⟨?_, ?_, updList_key_establish r hr hval⟩
          · refine updList_key_preserve
              (show ("Self Service Content" : String) ≠ "Test Report" by decide)
              (show ("Untested Version" : String) ≠ "Test Report" by decide) ?_ r hr hval
            exact updList_key_preserve
              (show ("Self Service Content" : String) ≠ "Prod. Version" by decide)
              (show ("Untested Version" : String) ≠ "Prod. Version" by decide)
              updList_key_establish
          · refine updList_key_preserve
              (show ("Self Service Content" : String) ≠ "Test Report" by decide)
              (show ("Prod. Version" : String) ≠ "Test Report" by decide) ?_ r hr hval
            exact updList_key_establish
  · simp only [hprd, Bool.false_eq_true, if_false]
    refine ⟨s.contentList, rfl, fun _ => rfl, ?_⟩
    intro hprd'
    exact hprd'.elim

/-! ### Claim C5 -/

/-- Claim C5: for every combination of product name with optional major
version, language, license, and platform inputs, the computed final policy
name consists of the name followed by exactly those optional segments that
are non-empty, in the fixed order name, majorVersion, language, license,
platform, each appended with a single space separator; an absent or empty
input contributes no segment (and the computation is total, so no error is
raised). -/
theorem c5_policy_namer (name major lang lic plat : String) :
    finalPolicyName name major lang lic plat =
      specFinalPolicyName name major lang lic plat := by
  unfold finalPolicyName specFinalPolicyName optSeg
  by_cases h1 : major = "" <;> by_cases h2 : lang = "" <;> by_cases h3 : lic = "" <;>
    by_cases h4 : plat = "" <;>
      simp [h1, h2, h3, h4, String.append_assoc]

/-! ### Flow A section lemmas -/

theorem exists_key_of_map_eq {l l' : List Record} {key val : String}
    (hmap : l'.map (fun r => getField r key) = l.map (fun r => getField r key))
    (h : ∃ r ∈ l, getField r key = val) : ∃ r ∈ l', getField r key = val := by
  obtain ⟨r, hr, hval⟩ := h
  have hmem : val ∈ l'.map (fun r => getField r key) := by
    rw [hmap]
    exact List.mem_map.2 ⟨r, hr, hval⟩
  obtain ⟨r', hr', hval'⟩ := List.mem_map.1 hmem
  exact ⟨r', hr', hval'⟩

theorem statusLoopA_run (ssn : String) (checks : List String)
    (hnr : "Needs review" ∉ checks) (next : Prog) (s : SPState) :
    ∃ tc' : List Record,
      run (statusLoopA ssn checks next) s = run next { s with testCoord := tc' } ∧
      (∀ r' ∈ tc', ∃ r ∈ s.testCoord,
        r' = r ∨ r' = setField r "Status" "Needs review") ∧
      (∀ c ∈ checks, ∀ r ∈ tc',
        recordMatches [("Self Service Content Name", "Eq", ssn),
          ("Release Completed", "Eq", "No"), ("Status", "Eq", c)] r = false) ∧
      (∀ k : String, k ≠ "Status" →
        tc'.map (fun r => getField r k) = s.testCoord.map (fun r => getField r k)) ∧
      ((∀ c ∈ checks, anyMatch s.testCoord [("Self Service Content Name", "Eq", ssn),
          ("Release Completed", "Eq", "No"), ("Status", "Eq", c)] = false) →
        tc' = s.testCoord) := by
  induction checks generalizing s with
  | nil =>
      refine ⟨s.testCoord, ?_, fun r' hr' => ⟨r', hr', Or.inl rfl⟩, by simp,
        fun _ _ => rfl, fun _ => rfl⟩
      simp only [statusLoopA]
  | cons c rest ih =>
      have hnc : "Needs review" ≠ c := fun h => hnr (by rw [h]; exact List.mem_cons_self c rest)
      have hnr' : "Needs review" ∉ rest := fun hmem => hnr (List.mem_cons_of_mem _ hmem)
      rw [statusLoopA, run_check, check_list_TC]
      rcases Bool.eq_false_or_eq_true (anyMatch s.testCoord
          [("Self Service Content Name", "Eq", ssn), ("Release Completed", "Eq", "No"),
            ("Status", "Eq", c)]) with hb | hb
      · -- tested but not released: reset to Needs review, then continue
        simp only [hb, if_true, run_update, update_record_TC]
        obtain ⟨tc', htc, hrel, hnm, hmap, _⟩ := ih hnr'
          ⟨s.contentList,
            updList [("Self Service Content Name", "Eq", ssn),
              ("Release Completed", "Eq", "No"), ("Status", "Eq", c)]
              "Status" "Needs review" s.testCoord,
            s.testReview⟩
        refine ⟨tc', by rw [htc], ?_, ?_, ?_, ?_⟩
        · intro r' hr'
          obtain ⟨r, hrM, hcase⟩ := hrel r' hr'
          obtain ⟨r0, hr0, heq0⟩ := mem_updList.1 hrM
          by_cases hm : recordMatches [("Self Service Content Name", "Eq", ssn),
              ("Release Completed", "Eq", "No"), ("Status", "Eq", c)] r0 = true
          · rw [if_pos hm] at heq0
            subst heq0
            rcases hcase with hcase | hcase
            · exact ⟨r0, hr0, Or.inr hcase⟩
            · exact ⟨r0, hr0, Or.inr (by rw [hcase, setField_setField_same])⟩
          · rw [if_neg hm] at heq0
            subst heq0
            exact ⟨r0, hr0, hcase⟩
        · intro c' hc' r' hr'
          rcases List.mem_cons.1 hc' with hc' | hc'
          · subst hc'
            obtain ⟨r, hrM, hcase⟩ := hrel r' hr'
            rcases hcase with hcase | hcase
            · subst hcase
              exact updList_three_breaks hnc _ hrM
            · subst hcase
              rw [recordMatches_three, getField_setField_self]
              simp [hnc]
          · exact hnm c' hc' r' hr'
        · intro k hk
          rw [hmap k hk]
          exact updList_map_getField k s.testCoord hk
        · intro hall
          have := hall c (List.mem_cons_self c rest)
          rw [this] at hb
          exact Bool.noConfusion hb
      · -- nothing to reset for this status
        simp only [hb, Bool.false_eq_true, if_false]
        obtain ⟨tc', htc, hrel, hnm, hmap, hfix⟩ := ih hnr' s
        refine ⟨tc', htc, hrel, ?_, hmap, ?_⟩
        · intro c' hc' r' hr'
          rcases List.mem_cons.1 hc' with hc' | hc'
          · subst hc'
            obtain ⟨r, hrM, hcase⟩ := hrel r' hr'
            rcases hcase with hcase | hcase
            · subst hcase
              exact (anyMatch_false _ _).1 hb _ hrM
            · subst hcase
              rw [recordMatches_three, getField_setField_self]
              simp [hnc]
          · exact hnm c' hc' r' hr'
        · intro hall
          rw [hfix fun c' hc' => hall c' (List.mem_cons_of_mem _ hc')]

theorem contentSectA_run (fpn ver cat : String) (next : Prog) (s : SPState) :
    ∃ cl' : List Record,
      run (contentSectA fpn ver cat next) s = run next { s with contentList := cl' } ∧
      (∃ r ∈ cl', getField r "Self Service Content" = fpn) ∧
      (∀ r ∈ cl', getField r "Self Service Content" = fpn →
        fieldSetTo r "Untested Version" ver = true ∧
        fieldSetTo r "Category" cat = true ∧
        fieldSetTo r "Content Type" "Application" = true) ∧
      (anyMatch cl' [("Self Service Content", "Eq", fpn), ("Autostage", "Eq", "Yes")] =
        anyMatch s.contentList
          [("Self Service Content", "Eq", fpn), ("Autostage", "Eq", "Yes")]) ∧
      ((anyMatch s.contentList [("Self Service Content", "Eq", fpn)] = true ∧
        ∀ r ∈ s.contentList, getField r "Self Service Content" = fpn →
          fieldSetTo r "Untested Version" ver = true ∧
          fieldSetTo r "Category" cat = true ∧
          fieldSetTo r "Content Type" "Application" = true) → cl' = s.contentList) := by
  rw [contentSectA, run_check, check_list_CL]
  rcases Bool.eq_false_or_eq_true
      (anyMatch s.contentList [("Self Service Content", "Eq", fpn)]) with hex | hex
  · simp only [hex, if_true, run_update, update_record_CL]
    refine ⟨_, rfl, ?_, ?_, ?_, ?_⟩
    · exact exists_key_updList (exists_key_updList (exists_key_updList
        (anyMatch_one_true hex) (by decide)) (by decide)) (by decide)
    · intro r hr hval
      refine ⟨?_, ?_, updList_key_establish_set r hr hval⟩
      · refine updList_key_preserve_set
          (show ("Self Service Content" : String) ≠ "Content Type" by decide)
          (show ("Untested Version" : String) ≠ "Content Type" by decide) ?_ r hr hval
        exact updList_key_preserve_set
          (show ("Self Service Content" : String) ≠ "Category" by decide)
          (show ("Untested Version" : String) ≠ "Category" by decide)
          updList_key_establish_set
      · refine updList_key_preserve_set
          (show ("Self Service Content" : String) ≠ "Content Type" by decide)
          (show ("Category" : String) ≠ "Content Type" by decide) ?_ r hr hval
        exact updList_key_establish_set
    · rw [anyMatch_two_updList (show ("Self Service Content" : String) ≠ "Content Type" by decide)
          (show ("Autostage" : String) ≠ "Content Type" by decide),
        anyMatch_two_updList (show ("Self Service Content" : String) ≠ "Category" by decide)
          (show ("Autostage" : String) ≠ "Category" by decide),
        anyMatch_two_updList (show ("Self Service Content" : String) ≠ "Untested Version" by decide)
          (show ("Autostage" : String) ≠ "Untested Version" by decide)]
    · rintro ⟨_, hall⟩
      rw [updList_one_eq_self fun r hr hg => (hall r hr hg).1,
        updList_one_eq_self fun r hr hg => (hall r hr hg).2.1,
        updList_one_eq_self fun r hr hg => (hall r hr hg).2.2]
  · simp only [hex, Bool.false_eq_true, if_false, run_update, run_add, update_record_CL,
      add_record_CL]
    refine ⟨_, rfl, ?_, ?_, ?_, ?_⟩
    · exact exists_key_updList (exists_key_updList (exists_key_updList
        (exists_key_append s.contentList (by simp [getField_cons])) (by decide))
          (by decide)) (by decide)
    · intro r hr hval
      refine ⟨?_, ?_, updList_key_establish_set r hr hval⟩
      · refine updList_key_preserve_set
          (show ("Self Service Content" : String) ≠ "Content Type" by decide)
          (show ("Untested Version" : String) ≠ "Content Type" by decide) ?_ r hr hval
        exact updList_key_preserve_set
          (show ("Self Service Content" : String) ≠ "Category" by decide)
          (show ("Untested Version" : String) ≠ "Category" by decide)
          updList_key_establish_set
      · refine updList_key_preserve_set
          (show ("Self Service Content" : String) ≠ "Content Type" by decide)
          (show ("Category" : String) ≠ "Content Type" by decide) ?_ r hr hval
        exact updList_key_establish_set
    · rw [anyMatch_two_updList (show ("Self Service Content" : String) ≠ "Content Type" by decide)
          (show ("Autostage" : String) ≠ "Content Type" by decide),
        anyMatch_two_updList (show ("Self Service Content" : String) ≠ "Category" by decide)
          (show ("Autostage" : String) ≠ "Category" by decide),
        anyMatch_two_updList (show ("Self Service Content" : String) ≠ "Untested Version" by decide)
          (show ("Autostage" : String) ≠ "Untested Version" by decide),
        anyMatch_append_nomatch (by rw [recordMatches_two]; simp [getField_cons])]
    · rintro ⟨hex', _⟩
      exact hex'.elim

theorem coordSectA_create_run (fpn ssn : String) (isAuto : Bool) (next : Prog)
    (s : SPState)
    (hN1 : ∀ r ∈ s.testCoord, getField r "Self Service Content Name" ≠ ssn)
    (hO : ∀ r ∈ s.testCoord, getField r "Final Content Name" = fpn →
      getField r "Release Completed" = "No" → getField r "Status" = "Obsolete") :
    ∃ tc' : List Record,
      run (coordSectA_create fpn ssn isAuto next) s =
        run next { s with testCoord := tc' } ∧
      (∃ r ∈ tc', getField r "Self Service Content Name" = ssn) ∧
      (∀ r ∈ tc', getField r "Self Service Content Name" = ssn →
        getField r "Release Completed" = "") ∧
      (isAuto = true → ∀ r ∈ tc', getField r "Self Service Content Name" = ssn →
        getField r "Status" = "Autostage") ∧
      (∀ r ∈ tc', getField r "Final Content Name" = fpn →
        getField r "Release Completed" = "No" → getField r "Status" = "Obsolete") := by
  have hRC2 : ∀ r ∈ s.testCoord ++ [[("Self Service Content Name", ssn)]],
      getField r "Self Service Content Name" = ssn →
        getField r "Release Completed" = "" := by
    refine append_prop (fun r hr hs => absurd hs (hN1 r hr)) ?_
    intro _
    simp [getField_cons]
  have hO2 : ∀ r ∈ s.testCoord ++ [[("Self Service Content Name", ssn)]],
      getField r "Final Content Name" = fpn →
        getField r "Release Completed" = "No" → getField r "Status" = "Obsolete" := by
    refine append_prop hO ?_
    intro _ hno
    exact absurd hno (by simp [getField_cons])
  have hRC3 : ∀ r ∈ updList [("Self Service Content Name", "Eq", ssn)]
      "Final Content Name" fpn (s.testCoord ++ [[("Self Service Content Name", ssn)]]),
      getField r "Self Service Content Name" = ssn →
        getField r "Release Completed" = "" := by
    refine updList_pres_prop ?_ hRC2
    intro r hP hval
    rw [getField_setField_ne r _
      (show ("Self Service Content Name" : String) ≠ "Final Content Name" by decide)] at hval
    rw [getField_setField_ne r _
      (show ("Release Completed" : String) ≠ "Final Content Name" by decide)]
    exact hP hval
  have hO3 : ∀ r ∈ updList [("Self Service Content Name", "Eq", ssn)]
      "Final Content Name" fpn (s.testCoord ++ [[("Self Service Content Name", ssn)]]),
      getField r "Final Content Name" = fpn →
        getField r "Release Completed" = "No" → getField r "Status" = "Obsolete" := by
    refine updList_pres_prop_match ?_ ?_
    · intro r hr hm _ hno
      rw [recordMatches_one] at hm
      rw [getField_setField_ne r _
        (show ("Release Completed" : String) ≠ "Final Content Name" by decide)] at hno
      rw [hRC2 r hr (by simpa using hm)] at hno
      exact absurd hno (by decide)
    · intro r hr _
      exact hO2 r hr
  have hEx3 : ∃ r ∈ updList [("Self Service Content Name", "Eq", ssn)]
      "Final Content Name" fpn (s.testCoord ++ [[("Self Service Content Name", ssn)]]),
      getField r "Self Service Content Name" = ssn :=
    exists_key_updList (exists_key_append s.testCoord (by simp [getField_cons]))
      (by decide)
  cases isAuto with
  | false =>
      rw [coordSectA_create, run_add, run_update, add_record_TC, update_record_TC]
      simp only [Bool.false_eq_true, if_false]
      refine ⟨_, rfl, hEx3, hRC3, ?_, hO3⟩
      intro h
      exact h.elim
  | true =>
      rw [coordSectA_create, run_add, run_update, add_record_TC, update_record_TC]
      simp only [if_true, run_update, update_record_TC]
      refine ⟨_, rfl, ?_, ?_, ?_, ?_⟩
      · exact exists_key_updList hEx3 (by decide)
      · refine updList_pres_prop ?_ hRC3
        intro r hP hval
        rw [getField_setField_ne r _
          (show ("Self Service Content Name" : String) ≠ "Status" by decide)] at hval
        rw [getField_setField_ne r _
          (show ("Release Completed" : String) ≠ "Status" by decide)]
        exact hP hval
      · intro _ r hr hval
        exact updList_key_establish r hr hval
      · refine updList_pres_prop_match ?_ ?_
        · intro r hr hm _ hno
          rw [recordMatches_one] at hm
          rw [getField_setField_ne r _
            (show ("Release Completed" : String) ≠ "Status" by decide)] at hno
          rw [hRC3 r hr (by simpa using hm)] at hno
          exact absurd hno (by decide)
        · intro r hr _
          exact hO3 r hr

theorem coordSectA_step2_run (fpn ssn : String) (isAuto : Bool) (next : Prog)
    (s : SPState)
    (hL2 : ∀ r ∈ s.testCoord, getField r "Self Service Content Name" = ssn →
      getField r "Release Completed" ≠ "Yes") :
    ∃ tc' : List Record,
      run (coordSectA_step2 fpn ssn isAuto next) s = run next { s with testCoord := tc' } ∧
      (∃ r ∈ tc', getField r "Self Service Content Name" = ssn) ∧
      (∀ r ∈ tc', getField r "Self Service Content Name" = ssn →
        getField r "Release Completed" ≠ "Yes") ∧
      (isAuto = true → ∀ r ∈ tc', getField r "Self Service Content Name" = ssn →
        getField r "Status" = "Autostage") ∧
      (isAuto = false → ∀ r ∈ tc', getField r "Self Service Content Name" = ssn →
        getField r "Release Completed" = "No" → getField r "Status" ∉ statusChecksA) ∧
      (anyMatch s.testCoord [("Self Service Content Name", "Eq", ssn)] = false →
        ∀ r ∈ tc', getField r "Final Content Name" = fpn →
          getField r "Release Completed" = "No" → getField r "Status" = "Obsolete") ∧
      ((anyMatch s.testCoord [("Self Service Content Name", "Eq", ssn)] = true ∧
        (isAuto = true → ∀ r ∈ s.testCoord,
          getField r "Self Service Content Name" = ssn →
            getField r "Status" = "Autostage") ∧
        (isAuto = false → ∀ r ∈ s.testCoord,
          getField r "Self Service Content Name" = ssn →
            getField r "Release Completed" = "No" →
              getField r "Status" ∉ statusChecksA)) →
        tc' = s.testCoord) := by
  rw [coordSectA_step2, run_check, check_list_TC]
  rcases Bool.eq_false_or_eq_true
      (anyMatch s.testCoord [("Self Service Content Name", "Eq", ssn)]) with hex | hex
  · -- exact entry present
    cases isAuto with
    | true =>
        simp only [hex, if_true, run_update, update_record_TC]
        refine ⟨_, rfl, ?_, ?_, ?_, ?_, ?_, ?_⟩
        · exact exists_key_updList (anyMatch_one_true hex) (by decide)
        · refine updList_pres_prop ?_ hL2
          intro r hP hval
          rw [getField_setField_ne r _
            (show ("Self Service Content Name" : String) ≠ "Status" by decide)] at hval
          rw [getField_setField_ne r _
            (show ("Release Completed" : String) ≠ "Status" by decide)]
          exact hP hval
        · intro _ r hr hval
          exact updList_neq_establish r hr hval
        · intro h
          exact Bool.noConfusion h
        · intro h
          exact Bool.noConfusion h
        · rintro ⟨-, h3, -⟩
          exact updList_of_noMatch _ _ (anyMatch_two_neq_false_of (h3 trivial))
    | false =>
        simp only [hex, if_true, Bool.false_eq_true, if_false]
        obtain ⟨tc', htc, hrel, hnm, hmap, hfix⟩ :=
          statusLoopA_run ssn statusChecksA (by decide) next s
        refine ⟨tc', htc, ?_, ?_, ?_, ?_, ?_, ?_⟩
        · exact exists_key_of_map_eq (hmap _ (by decide)) (anyMatch_one_true hex)
        · intro r' hr' hval
          obtain ⟨r, hrM, hcase⟩ := hrel r' hr'
          rcases hcase with hcase | hcase
          · subst hcase
            exact hL2 _ hrM hval
          · subst hcase
            rw [getField_setField_ne r _
              (show ("Self Service Content Name" : String) ≠ "Status" by decide)] at hval
            rw [getField_setField_ne r _
              (show ("Release Completed" : String) ≠ "Status" by decide)]
            exact hL2 _ hrM hval
        · intro h
          exact h.elim
        · intro _ r' hr' hssn hrc hmem
          have hx := hnm _ hmem r' hr'
          rw [recordMatches_three] at hx
          simp [hssn, hrc] at hx
        · intro h
          exact Bool.noConfusion h
        · rintro ⟨-, -, h4⟩
          refine hfix fun c hc => anyMatch_three_false_of fun r hr h1 h2 h3eq => ?_
          exact (h4 trivial r hr h1 h2) (by rw [h3eq]; exact hc)
  · -- no exact entry: obsolete stale entries, then create
    have hN1 := anyMatch_one_false hex
    simp only [hex, Bool.false_eq_true, if_false, run_check, check_list_TC]
    rcases Bool.eq_false_or_eq_true (anyMatch s.testCoord
        [("Final Content Name", "Eq", fpn), ("Release Completed", "Eq", "No"),
          ("Status", "Neq", "Obsolete")]) with hun | hun
    · simp only [hun, if_true, run_update, update_record_TC]
      have hN1' : ∀ r ∈ updList [("Final Content Name", "Eq", fpn),
          ("Release Completed", "Eq", "No"), ("Status", "Neq", "Obsolete")]
          "Status" "Obsolete" s.testCoord,
          getField r "Self Service Content Name" ≠ ssn := by
        refine updList_pres_prop ?_ hN1
        intro r hP hval
        rw [getField_setField_ne r _
          (show ("Self Service Content Name" : String) ≠ "Status" by decide)] at hval
        exact hP hval
      obtain ⟨tc', htc, hc2, hc3, hc4, hc5⟩ :=
        coordSectA_create_run fpn ssn isAuto next
          ⟨s.contentList,
            updList [("Final Content Name", "Eq", fpn), ("Release Completed", "Eq", "No"),
              ("Status", "Neq", "Obsolete")] "Status" "Obsolete" s.testCoord,
            s.testReview⟩
          hN1' (updList_three_neq_establish)
      refine ⟨tc', by rw [htc], hc2, ?_, hc4, ?_, fun _ => hc5, ?_⟩
      · intro r hr hs
        rw [hc3 r hr hs]
        decide
      · intro _ r hr hs hno
        rw [hc3 r hr hs] at hno
        exact absurd hno (by decide)
      · rintro ⟨h, -, -⟩
        exact h.elim
    · simp only [hun, Bool.false_eq_true, if_false]
      obtain ⟨tc', htc, hc2, hc3, hc4, hc5⟩ :=
        coordSectA_create_run fpn ssn isAuto next s hN1 (anyMatch_three_neq_false hun)
      refine ⟨tc', htc, hc2, ?_, hc4, ?_, fun _ => hc5, ?_⟩
      · intro r hr hs
        rw [hc3 r hr hs]
        decide
      · intro _ r hr hs hno
        rw [hc3 r hr hs] at hno
        exact absurd hno (by decide)
      · rintro ⟨h, -, -⟩
        exact h.elim

theorem coordSectA_run (fpn ssn : String) (isAuto : Bool) (next : Prog) (s : SPState) :
    ∃ tc' : List Record,
      run (coordSectA fpn ssn isAuto next) s = run next { s with testCoord := tc' } ∧
      (∃ r ∈ tc', getField r "Self Service Content Name" = ssn) ∧
      (∀ r ∈ tc', getField r "Self Service Content Name" = ssn →
        getField r "Release Completed" ≠ "Yes") ∧
      (isAuto = true → ∀ r ∈ tc', getField r "Self Service Content Name" = ssn →
        getField r "Status" = "Autostage") ∧
      (isAuto = false → ∀ r ∈ tc', getField r "Self Service Content Name" = ssn →
        getField r "Release Completed" = "No" → getField r "Status" ∉ statusChecksA) ∧
      (anyMatch s.testCoord [("Self Service Content Name", "Eq", ssn)] = false →
        ∀ r ∈ tc', getField r "Final Content Name" = fpn →
          getField r "Release Completed" = "No" → getField r "Status" = "Obsolete") ∧
      ((anyMatch s.testCoord [("Self Service Content Name", "Eq", ssn)] = true ∧
        (∀ r ∈ s.testCoord, getField r "Self Service Content Name" = ssn →
          getField r "Release Completed" ≠ "Yes") ∧
        (isAuto = true → ∀ r ∈ s.testCoord,
          getField r "Self Service Content Name" = ssn →
            getField r "Status" = "Autostage") ∧
        (isAuto = false → ∀ r ∈ s.testCoord,
          getField r "Self Service Content Name" = ssn →
            getField r "Release Completed" = "No" →
              getField r "Status" ∉ statusChecksA)) →
        tc' = s.testCoord) := by
  rw [coordSectA, run_check, check_list_TC]
  rcases Bool.eq_false_or_eq_true (anyMatch s.testCoord
      [("Self Service Content Name", "Eq", ssn), ("Release Completed", "Eq", "Yes")])
    with hrel | hrel
  · -- released entry present: clear Release Completed first
    simp only [hrel, if_true, run_update, update_record_TC]
    obtain ⟨tc', htc, f1, f2, f3, f4, f5, f6⟩ :=
      coordSectA_step2_run fpn ssn isAuto next
        ⟨s.contentList,
          updList [("Self Service Content Name", "Eq", ssn),
            ("Release Completed", "Eq", "Yes")] "Release Completed" "No" s.testCoord,
          s.testReview⟩
        (updList_two_clears (by decide))
    refine ⟨tc', by rw [htc], f1, f2, f3, f4, ?_, ?_⟩
    · intro h
      refine f5 ?_
      rw [show anyMatch (updList [("Self Service Content Name", "Eq", ssn),
          ("Release Completed", "Eq", "Yes")] "Release Completed" "No" s.testCoord)
          [("Self Service Content Name", "Eq", ssn)] =
        anyMatch s.testCoord [("Self Service Content Name", "Eq", ssn)] from
        anyMatch_one_updList (by decide)]
      exact h
    · rintro ⟨-, h2, -, -⟩
      rw [anyMatch_two_false_of h2] at hrel
      exact Bool.noConfusion hrel
  · -- no released entry
    simp only [hrel, Bool.false_eq_true, if_false]
    obtain ⟨tc', htc, f1, f2, f3, f4, f5, f6⟩ :=
      coordSectA_step2_run fpn ssn isAuto next s (anyMatch_two_false hrel)
    exact ⟨tc', htc, f1, f2, f3, f4, f5, fun ⟨h1, _, h3, h4⟩ => f6 ⟨h1, h3, h4⟩⟩

theorem reviewSectA_create_run (fpn ssn ec pn : String) (next : Prog) (s : SPState)
    (hN1 : ∀ r ∈ s.testReview, getField r "Self Service Content Name" ≠ ssn)
    (hT : ∀ r ∈ s.testReview, getField r "Final Content Name" = fpn →
      getField r "Release Completed TST" ≠ "No") :
    ∃ tr' : List Record,
      run (reviewSectA_create fpn ssn ec pn next) s =
        run next { s with testReview := tr' } ∧
      (∃ r ∈ tr', getField r "Self Service Content Name" = ssn) ∧
      (∀ r ∈ tr', getField r "Final Content Name" = fpn →
        getField r "Release Completed TST" ≠ "No") := by
  have hTe2 : ∀ r ∈ s.testReview ++ [[("Self Service Content Name", ssn)]],
      getField r "Self Service Content Name" = ssn →
        getField r "Release Completed TST" = "" := by
    refine append_prop (fun r hr hs => absurd hs (hN1 r hr)) ?_
    intro _
    simp [getField_cons]
  have hT2 : ∀ r ∈ s.testReview ++ [[("Self Service Content Name", ssn)]],
      getField r "Final Content Name" = fpn →
        getField r "Release Completed TST" ≠ "No" := by
    refine append_prop hT ?_
    intro _ hno
    exact absurd hno (by simp [getField_cons])
  have hT3 : ∀ r ∈ updList [("Self Service Content Name", "Eq", ssn)]
      "Final Content Name" fpn (s.testReview ++ [[("Self Service Content Name", ssn)]]),
      getField r "Final Content Name" = fpn →
        getField r "Release Completed TST" ≠ "No" := by
    refine updList_pres_prop_match ?_ ?_
    · intro r hr hm _
      rw [recordMatches_one] at hm
      rw [getField_setField_ne r _
        (show ("Release Completed TST" : String) ≠ "Final Content Name" by decide)]
      rw [hTe2 r hr (by simpa using hm)]
      decide
    · intro r hr _
      exact hT2 r hr
  have hP4 : ∀ r ∈ updList [("Self Service Content Name", "Eq", ssn)]
      "Executable_Command" ec (updList [("Self Service Content Name", "Eq", ssn)]
        "Final Content Name" fpn
        (s.testReview ++ [[("Self Service Content Name", ssn)]])),
      getField r "Final Content Name" = fpn →
        getField r "Release Completed TST" ≠ "No" := by
    refine updList_pres_prop ?_ hT3
    intro r hP hval
    rw [getField_setField_ne r _
      (show ("Final Content Name" : String) ≠ "Executable_Command" by decide)] at hval
    rw [getField_setField_ne r _
      (show ("Release Completed TST" : String) ≠ "Executable_Command" by decide)]
    exact hP hval
  rw [reviewSectA_create, run_add, run_update, run_update, run_update, add_record_TR,
    update_record_TR, update_record_TR, update_record_TR]
  refine ⟨_, rfl, ?_, ?_⟩
  · exact exists_key_updList (exists_key_updList (exists_key_updList
      (exists_key_append s.testReview (by simp [getField_cons])) (by decide))
        (by decide)) (by decide)
  · refine updList_pres_prop ?_ hP4
    intro r hP hval
    rw [getField_setField_ne r _
      (show ("Final Content Name" : String) ≠ "Process_Name" by decide)] at hval
    rw [getField_setField_ne r _
      (show ("Release Completed TST" : String) ≠ "Process_Name" by decide)]
    exact hP hval

theorem reviewSectA_run (fpn ssn ec pn : String) (next : Prog) (s : SPState) :
    ∃ tr' : List Record,
      run (reviewSectA fpn ssn ec pn next) s = run next { s with testReview := tr' } ∧
      (∃ r ∈ tr', getField r "Self Service Content Name" = ssn) ∧
      (anyMatch s.testReview [("Self Service Content Name", "Eq", ssn)] = false →
        ∀ r ∈ tr', getField r "Final Content Name" = fpn →
          getField r "Release Completed TST" ≠ "No") ∧
      (anyMatch s.testReview [("Self Service Content Name", "Eq", ssn)] = true →
        ∀ r ∈ tr', getField r "Self Service Content Name" = ssn →
          fieldSetTo r "Release Completed TST" "No" = true ∧
          fieldSetTo r "Release Completed PRD" "No" = true ∧
          fieldSetTo r "Ready for Production" "No" = true ∧
          fieldSetTo r "Executable_Command" ec = true ∧
          fieldSetTo r "Process_Name" pn = true) ∧
      ((anyMatch s.testReview [("Self Service Content Name", "Eq", ssn)] = true ∧
        ∀ r ∈ s.testReview, getField r "Self Service Content Name" = ssn →
          fieldSetTo r "Release Completed TST" "No" = true ∧
          fieldSetTo r "Release Completed PRD" "No" = true ∧
          fieldSetTo r "Ready for Production" "No" = true ∧
          fieldSetTo r "Executable_Command" ec = true ∧
          fieldSetTo r "Process_Name" pn = true) → tr' = s.testReview) := by
  rw [reviewSectA, run_check, check_list_TR]
  rcases Bool.eq_false_or_eq_true
      (anyMatch s.testReview [("Self Service Content Name", "Eq", ssn)]) with hex | hex
  · -- exact entry present: reset the five fields
    simp only [hex, if_true, run_update, update_record_TR]
    refine ⟨_, rfl, ?_, ?_, ?_, ?_⟩
    · exact exists_key_updList (exists_key_updList (exists_key_updList
        (exists_key_updList (exists_key_updList (anyMatch_one_true hex) (by decide))
          (by decide)) (by decide)) (by decide)) (by decide)
    · intro h
      exact Bool.noConfusion h
    · intro _ r hr hval
      refine ⟨?_, ?_, ?_, ?_, updList_key_establish_set r hr hval⟩
      · refine updList_key_preserve_set
          (show ("Self Service Content Name" : String) ≠ "Process_Name" by decide)
          (show ("Release Completed TST" : String) ≠ "Process_Name" by decide) ?_ r hr hval
        refine updList_key_preserve_set
          (show ("Self Service Content Name" : String) ≠ "Executable_Command" by decide)
          (show ("Release Completed TST" : String) ≠ "Executable_Command" by decide) ?_
        refine updList_key_preserve_set
          (show ("Self Service Content Name" : String) ≠ "Ready for Production" by decide)
          (show ("Release Completed TST" : String) ≠ "Ready for Production" by decide) ?_
        refine updList_key_preserve_set
          (show ("Self Service Content Name" : String) ≠ "Release Completed PRD" by decide)
          (show ("Release Completed TST" : String) ≠ "Release Completed PRD" by decide) ?_
        exact updList_key_establish_set
      · refine updList_key_preserve_set
          (show ("Self Service Content Name" : String) ≠ "Process_Name" by decide)
          (show ("Release Completed PRD" : String) ≠ "Process_Name" by decide) ?_ r hr hval
        refine updList_key_preserve_set
          (show ("Self Service Content Name" : String) ≠ "Executable_Command" by decide)
          (show ("Release Completed PRD" : String) ≠ "Executable_Command" by decide) ?_
        refine updList_key_preserve_set
          (show ("Self Service Content Name" : String) ≠ "Ready for Production" by decide)
          (show ("Release Completed PRD" : String) ≠ "Ready for Production" by decide) ?_
        exact updList_key_establish_set
      · refine updList_key_preserve_set
          (show ("Self Service Content Name" : String) ≠ "Process_Name" by decide)
          (show ("Ready for Production" : String) ≠ "Process_Name" by decide) ?_ r hr hval
        refine updList_key_preserve_set
          (show ("Self Service Content Name" : String) ≠ "Executable_Command" by decide)
          (show ("Ready for Production" : String) ≠ "Executable_Command" by decide) ?_
        exact updList_key_establish_set
      · refine updList_key_preserve_set
          (show ("Self Service Content Name" : String) ≠ "Process_Name" by decide)
          (show ("Executable_Command" : String) ≠ "Process_Name" by decide) ?_ r hr hval
        exact updList_key_establish_set
    · rintro ⟨-, hall⟩
      rw [updList_one_eq_self fun r hr hg => (hall r hr hg).1,
        updList_one_eq_self fun r hr hg => (hall r hr hg).2.1,
        updList_one_eq_self fun r hr hg => (hall r hr hg).2.2.1,
        updList_one_eq_self fun r hr hg => (hall r hr hg).2.2.2.1,
        updList_one_eq_self fun r hr hg => (hall r hr hg).2.2.2.2]
  · -- no exact entry: clean up stale rows, then create
    have hN1 := anyMatch_one_false hex
    simp only [hex, Bool.false_eq_true, if_false, run_check, check_list_TR]
    rcases Bool.eq_false_or_eq_true (anyMatch s.testReview
        [("Final Content Name", "Eq", fpn), ("Release Completed TST", "Eq", "No")])
      with hnr | hnr
    · -- stale unreleased (TST) rows: delete them
      simp only [hnr, if_true, run_delete, delete_record_TR]
      obtain ⟨tr', htr, hc2, hc3⟩ :=
        reviewSectA_create_run fpn ssn ec pn next
          ⟨s.contentList, s.testCoord,
            delList [("Final Content Name", "Eq", fpn),
              ("Release Completed TST", "Eq", "No")] s.testReview⟩
          (delList_prop hN1) (delList_two_false)
      refine ⟨tr', by rw [htr], hc2, fun _ => hc3, ?_, ?_⟩
      · intro h
        exact h.elim
      · rintro ⟨h, -⟩
        exact h.elim
    · -- no stale TST rows: possibly mark PRD as skipped
      simp only [hnr, Bool.false_eq_true, if_false, run_check, check_list_TR]
      have hT0 := anyMatch_two_false hnr
      rcases Bool.eq_false_or_eq_true (anyMatch s.testReview
          [("Final Content Name", "Eq", fpn), ("Release Completed PRD", "Eq", "No")])
        with hnp | hnp
      · simp only [hnp, if_true, run_update, update_record_TR]
        have hN1' : ∀ r ∈ updList [("Final Content Name", "Eq", fpn),
            ("Release Completed PRD", "Eq", "No")] "Release Completed PRD" "Skipped"
            s.testReview, getField r "Self Service Content Name" ≠ ssn := by
          refine updList_pres_prop ?_ hN1
          intro r hP hval
          rw [getField_setField_ne r _
            (show ("Self Service Content Name" : String) ≠ "Release Completed PRD"
              by decide)] at hval
          exact hP hval
        have hT0' : ∀ r ∈ updList [("Final Content Name", "Eq", fpn),
            ("Release Completed PRD", "Eq", "No")] "Release Completed PRD" "Skipped"
            s.testReview, getField r "Final Content Name" = fpn →
              getField r "Release Completed TST" ≠ "No" := by
          refine updList_pres_prop ?_ hT0
          intro r hP hval
          rw [getField_setField_ne r _
            (show ("Final Content Name" : String) ≠ "Release Completed PRD"
              by decide)] at hval
          rw [getField_setField_ne r _
            (show ("Release Completed TST" : String) ≠ "Release Completed PRD"
              by decide)]
          exact hP hval
        obtain ⟨tr', htr, hc2, hc3⟩ :=
          reviewSectA_create_run fpn ssn ec pn next
            ⟨s.contentList, s.testCoord,
              updList [("Final Content Name", "Eq", fpn),
                ("Release Completed PRD", "Eq", "No")] "Release Completed PRD" "Skipped"
                s.testReview⟩
            hN1' hT0'
        refine ⟨tr', by rw [htr], hc2, fun _ => hc3, ?_, ?_⟩
        · intro h
          exact h.elim
        · rintro ⟨h, -⟩
          exact h.elim
      · simp only [hnp, Bool.false_eq_true, if_false]
        obtain ⟨tr', htr, hc2, hc3⟩ :=
          reviewSectA_create_run fpn ssn ec pn next s hN1 hT0
        refine ⟨tr', htr, hc2, fun _ => hc3, ?_, ?_⟩
        · intro h
          exact h.elim
        · rintro ⟨h, -⟩
          exact h.elim

theorem flowA_post (cfg : Config) (s : SPState)
    (hA : cfg.selfservice_policy_name = "")
    (hp : hasSub cfg.jss_url "prd" = true) :
    anyMatch (mainRun cfg s).contentList
      [("Self Service Content", "Eq", finalPolicyName cfg.name cfg.major_version
        cfg.language cfg.license cfg.platform)] = true ∧
    (∀ r ∈ (mainRun cfg s).contentList,
      getField r "Self Service Content" = finalPolicyName cfg.name cfg.major_version
        cfg.language cfg.license cfg.platform →
      fieldSetTo r "Untested Version" cfg.version = true ∧
      fieldSetTo r "Category" cfg.category = true ∧
      fieldSetTo r "Content Type" "Application" = true) ∧
    anyMatch (mainRun cfg s).contentList
      [("Self Service Content", "Eq", finalPolicyName cfg.name cfg.major_version
        cfg.language cfg.license cfg.platform), ("Autostage", "Eq", "Yes")] =
      anyMatch s.contentList
        [("Self Service Content", "Eq", finalPolicyName cfg.name cfg.major_version
          cfg.language cfg.license cfg.platform), ("Autostage", "Eq", "Yes")] ∧
    anyMatch (mainRun cfg s).testCoord
      [("Self Service Content Name", "Eq", selfServicePolicyName
        (finalPolicyName cfg.name cfg.major_version cfg.language cfg.license cfg.platform)
        cfg.version)] = true ∧
    (∀ r ∈ (mainRun cfg s).testCoord,
      getField r "Self Service Content Name" = selfServicePolicyName
        (finalPolicyName cfg.name cfg.major_version cfg.language cfg.license cfg.platform)
        cfg.version →
      getField r "Release Completed" ≠ "Yes") ∧
    (anyMatch s.contentList
      [("Self Service Content", "Eq", finalPolicyName cfg.name cfg.major_version
        cfg.language cfg.license cfg.platform), ("Autostage", "Eq", "Yes")] = true →
      ∀ r ∈ (mainRun cfg s).testCoord,
        getField r "Self Service Content Name" = selfServicePolicyName
          (finalPolicyName cfg.name cfg.major_version cfg.language cfg.license
            cfg.platform) cfg.version →
        getField r "Status" = "Autostage") ∧
    (anyMatch s.contentList
      [("Self Service Content", "Eq", finalPolicyName cfg.name cfg.major_version
        cfg.language cfg.license cfg.platform), ("Autostage", "Eq", "Yes")] = false →
      ∀ r ∈ (mainRun cfg s).testCoord,
        getField r "Self Service Content Name" = selfServicePolicyName
          (finalPolicyName cfg.name cfg.major_version cfg.language cfg.license
            cfg.platform) cfg.version →
        getField r "Release Completed" = "No" →
        getField r "Status" ∉ statusChecksA) ∧
    anyMatch (mainRun cfg s).testReview
      [("Self Service Content Name", "Eq", selfServicePolicyName
        (finalPolicyName cfg.name cfg.major_version cfg.language cfg.license cfg.platform)
        cfg.version)] = true ∧
    (anyMatch s.testReview
      [("Self Service Content Name", "Eq", selfServicePolicyName
        (finalPolicyName cfg.name cfg.major_version cfg.language cfg.license cfg.platform)
        cfg.version)] = true →
      ∀ r ∈ (mainRun cfg s).testReview,
        getField r "Self Service Content Name" = selfServicePolicyName
          (finalPolicyName cfg.name cfg.major_version cfg.language cfg.license
            cfg.platform) cfg.version →
        fieldSetTo r "Release Completed TST" "No" = true ∧
        fieldSetTo r "Release Completed PRD" "No" = true ∧
        fieldSetTo r "Ready for Production" "No" = true ∧
        fieldSetTo r "Executable_Command" cfg.executable_command = true ∧
        fieldSetTo r "Process_Name" cfg.process_name = true) := by
  rw [mainRun, mainProg, if_pos hA]
  simp only [hp, if_true, run_connect]
  obtain ⟨cl', hcl, a1, a2, a3, _⟩ :=
    contentSectA_run (finalPolicyName cfg.name cfg.major_version cfg.language cfg.license
        cfg.platform) cfg.version cfg.category
      (autostageCheckA (finalPolicyName cfg.name cfg.major_version cfg.language
          cfg.license cfg.platform)
        fun is_app_autostage =>
          coordSectA (finalPolicyName cfg.name cfg.major_version cfg.language cfg.license
              cfg.platform)
            (selfServicePolicyName (finalPolicyName cfg.name cfg.major_version
              cfg.language cfg.license cfg.platform) cfg.version) is_app_autostage
            (reviewSectA (finalPolicyName cfg.name cfg.major_version cfg.language
                cfg.license cfg.platform)
              (selfServicePolicyName (finalPolicyName cfg.name cfg.major_version
                cfg.language cfg.license cfg.platform) cfg.version)
              cfg.executable_command cfg.process_name Prog.done)) s
  rw [hcl, autostageCheckA, run_check]
  have hac : check_list { s with contentList := cl' } "Jamf Content List"
      [("Self Service Content", "Eq", finalPolicyName cfg.name cfg.major_version
        cfg.language cfg.license cfg.platform), ("Autostage", "Eq", "Yes")] =
      anyMatch s.contentList
        [("Self Service Content", "Eq", finalPolicyName cfg.name cfg.major_version
          cfg.language cfg.license cfg.platform), ("Autostage", "Eq", "Yes")] := by
    rw [check_list_CL]
    exact a3
  rcases Bool.eq_false_or_eq_true (anyMatch s.contentList
      [("Self Service Content", "Eq", finalPolicyName cfg.name cfg.major_version
        cfg.language cfg.license cfg.platform), ("Autostage", "Eq", "Yes")])
    with hauto | hauto
  · -- autostage flagged
    rw [hauto] at hac
    rw [hac]
    obtain ⟨tc', htc, f1, f2, f3, _, _, _⟩ :=
      coordSectA_run (finalPolicyName cfg.name cfg.major_version cfg.language cfg.license
          cfg.platform)
        (selfServicePolicyName (finalPolicyName cfg.name cfg.major_version cfg.language
          cfg.license cfg.platform) cfg.version) true
        (reviewSectA (finalPolicyName cfg.name cfg.major_version cfg.language cfg.license
            cfg.platform)
          (selfServicePolicyName (finalPolicyName cfg.name cfg.major_version cfg.language
            cfg.license cfg.platform) cfg.version)
          cfg.executable_command cfg.process_name Prog.done)
        { s with contentList := cl' }
    rw [htc]
    obtain ⟨tr', htr, g1, _, g3, _⟩ :=
      reviewSectA_run (finalPolicyName cfg.name cfg.major_version cfg.language cfg.license
          cfg.platform)
        (selfServicePolicyName (finalPolicyName cfg.name cfg.major_version cfg.language
          cfg.license cfg.platform) cfg.version)
        cfg.executable_command cfg.process_name Prog.done
        { { s with contentList := cl' } with testCoord := tc' }
    rw [htr, run_done]
    refine ⟨anyMatch_one_of a1, a2, a3, anyMatch_one_of f1, f2, fun _ => f3 rfl, ?_, 
      anyMatch_one_of g1, g3⟩
    intro h
    rw [h] at hauto
    exact Bool.noConfusion hauto
  · -- not autostage
    rw [hauto] at hac
    rw [hac]
    obtain ⟨tc', htc, f1, f2, _, f4, _, _⟩ :=
      coordSectA_run (finalPolicyName cfg.name cfg.major_version cfg.language cfg.license
          cfg.platform)
        (selfServicePolicyName (finalPolicyName cfg.name cfg.major_version cfg.language
          cfg.license cfg.platform) cfg.version) false
        (reviewSectA (finalPolicyName cfg.name cfg.major_version cfg.language cfg.license
            cfg.platform)
          (selfServicePolicyName (finalPolicyName cfg.name cfg.major_version cfg.language
            cfg.license cfg.platform) cfg.version)
          cfg.executable_command cfg.process_name Prog.done)
        { s with contentList := cl' }
    rw [htc]
    obtain ⟨tr', htr, g1, _, g3, _⟩ :=
      reviewSectA_run (finalPolicyName cfg.name cfg.major_version cfg.language cfg.license
          cfg.platform)
        (selfServicePolicyName (finalPolicyName cfg.name cfg.major_version cfg.language
          cfg.license cfg.platform) cfg.version)
        cfg.executable_command cfg.process_name Prog.done
        { { s with contentList := cl' } with testCoord := tc' }
    rw [htr, run_done]
    refine ⟨anyMatch_one_of a1, a2, a3, anyMatch_one_of f1, f2, ?_, fun _ => f4 rfl,
      anyMatch_one_of g1, g3⟩
    intro h
    rw [h] at hauto
    exact Bool.noConfusion hauto

theorem flowA_fixpoint (cfg : Config) (s : SPState)
    (hA : cfg.selfservice_policy_name = "")
    (hp : hasSub cfg.jss_url "prd" = true)
    (h1 : anyMatch s.contentList
      [("Self Service Content", "Eq", finalPolicyName cfg.name cfg.major_version
        cfg.language cfg.license cfg.platform)] = true)
    (h2 : ∀ r ∈ s.contentList,
      getField r "Self Service Content" = finalPolicyName cfg.name cfg.major_version
        cfg.language cfg.license cfg.platform →
      fieldSetTo r "Untested Version" cfg.version = true ∧
      fieldSetTo r "Category" cfg.category = true ∧
      fieldSetTo r "Content Type" "Application" = true)
    (h4 : anyMatch s.testCoord
      [("Self Service Content Name", "Eq", selfServicePolicyName
        (finalPolicyName cfg.name cfg.major_version cfg.language cfg.license cfg.platform)
        cfg.version)] = true)
    (h5 : ∀ r ∈ s.testCoord,
      getField r "Self Service Content Name" = selfServicePolicyName
        (finalPolicyName cfg.name cfg.major_version cfg.language cfg.license cfg.platform)
        cfg.version →
      getField r "Release Completed" ≠ "Yes")
    (h6 : anyMatch s.contentList
      [("Self Service Content", "Eq", finalPolicyName cfg.name cfg.major_version
        cfg.language cfg.license cfg.platform), ("Autostage", "Eq", "Yes")] = true →
      ∀ r ∈ s.testCoord,
        getField r "Self Service Content Name" = selfServicePolicyName
          (finalPolicyName cfg.name cfg.major_version cfg.language cfg.license
            cfg.platform) cfg.version →
        getField r "Status" = "Autostage")
    (h7 : anyMatch s.contentList
      [("Self Service Content", "Eq", finalPolicyName cfg.name cfg.major_version
        cfg.language cfg.license cfg.platform), ("Autostage", "Eq", "Yes")] = false →
      ∀ r ∈ s.testCoord,
        getField r "Self Service Content Name" = selfServicePolicyName
          (finalPolicyName cfg.name cfg.major_version cfg.language cfg.license
            cfg.platform) cfg.version →
        getField r "Release Completed" = "No" →
        getField r "Status" ∉ statusChecksA)
    (h8 : anyMatch s.testReview
      [("Self Service Content Name", "Eq", selfServicePolicyName
        (finalPolicyName cfg.name cfg.major_version cfg.language cfg.license cfg.platform)
        cfg.version)] = true)
    (h9 : ∀ r ∈ s.testReview,
      getField r "Self Service Content Name" = selfServicePolicyName
        (finalPolicyName cfg.name cfg.major_version cfg.language cfg.license cfg.platform)
        cfg.version →
      fieldSetTo r "Release Completed TST" "No" = true ∧
      fieldSetTo r "Release Completed PRD" "No" = true ∧
      fieldSetTo r "Ready for Production" "No" = true ∧
      fieldSetTo r "Executable_Command" cfg.executable_command = true ∧
      fieldSetTo r "Process_Name" cfg.process_name = true) :
    mainRun cfg s = s := by
  rw [mainRun, mainProg, if_pos hA]
  simp only [hp, if_true, run_connect]
  obtain ⟨cl', hcl, _, _, a3, afix⟩ :=
    contentSectA_run (finalPolicyName cfg.name cfg.major_version cfg.language cfg.license
        cfg.platform) cfg.version cfg.category
      (autostageCheckA (finalPolicyName cfg.name cfg.major_version cfg.language
          cfg.license cfg.platform)
        fun is_app_autostage =>
          coordSectA (finalPolicyName cfg.name cfg.major_version cfg.language cfg.license
              cfg.platform)
            (selfServicePolicyName (finalPolicyName cfg.name cfg.major_version
              cfg.language cfg.license cfg.platform) cfg.version) is_app_autostage
            (reviewSectA (finalPolicyName cfg.name cfg.major_version cfg.language
                cfg.license cfg.platform)
              (selfServicePolicyName (finalPolicyName cfg.name cfg.major_version
                cfg.language cfg.license cfg.platform) cfg.version)
              cfg.executable_command cfg.process_name Prog.done)) s
  have hclfix : cl' = s.contentList := afix ⟨h1, h2⟩
  rw [hcl, hclfix, autostageCheckA, run_check]
  have hac : check_list { s with contentList := s.contentList } "Jamf Content List"
      [("Self Service Content", "Eq", finalPolicyName cfg.name cfg.major_version
        cfg.language cfg.license cfg.platform), ("Autostage", "Eq", "Yes")] =
      anyMatch s.contentList
        [("Self Service Content", "Eq", finalPolicyName cfg.name cfg.major_version
          cfg.language cfg.license cfg.platform), ("Autostage", "Eq", "Yes")] := by
    rw [check_list_CL]
  rcases Bool.eq_false_or_eq_true (anyMatch s.contentList
      [("Self Service Content", "Eq", finalPolicyName cfg.name cfg.major_version
        cfg.language cfg.license cfg.platform), ("Autostage", "Eq", "Yes")])
    with hauto | hauto
  · rw [hauto] at hac
    rw [hac]
    obtain ⟨tc', htc, _, _, _, _, _, ffix⟩ :=
      coordSectA_run (finalPolicyName cfg.name cfg.major_version cfg.language cfg.license
          cfg.platform)
        (selfServicePolicyName (finalPolicyName cfg.name cfg.major_version cfg.language
          cfg.license cfg.platform) cfg.version) true
        (reviewSectA (finalPolicyName cfg.name cfg.major_version cfg.language cfg.license
            cfg.platform)
          (selfServicePolicyName (finalPolicyName cfg.name cfg.major_version cfg.language
            cfg.license cfg.platform) cfg.version)
          cfg.executable_command cfg.process_name Prog.done)
        { s with contentList := s.contentList }
    have htcfix : tc' = s.testCoord :=
      ffix ⟨h4, h5, fun _ => h6 hauto, fun hff => Bool.noConfusion hff⟩
    rw [htc, htcfix]
    obtain ⟨tr', htr, _, _, _, gfix⟩ :=
      reviewSectA_run (finalPolicyName cfg.name cfg.major_version cfg.language cfg.license
          cfg.platform)
        (selfServicePolicyName (finalPolicyName cfg.name cfg.major_version cfg.language
          cfg.license cfg.platform) cfg.version)
        cfg.executable_command cfg.process_name Prog.done
        { { s with contentList := s.contentList } with testCoord := s.testCoord }
    have htrfix : tr' = s.testReview := gfix ⟨h8, h9⟩
    rw [htr, htrfix, run_done]
  · rw [hauto] at hac
    rw [hac]
    obtain ⟨tc', htc, _, _, _, _, _, ffix⟩ :=
      coordSectA_run (finalPolicyName cfg.name cfg.major_version cfg.language cfg.license
          cfg.platform)
        (selfServicePolicyName (finalPolicyName cfg.name cfg.major_version cfg.language
          cfg.license cfg.platform) cfg.version) false
        (reviewSectA (finalPolicyName cfg.name cfg.major_version cfg.language cfg.license
            cfg.platform)
          (selfServicePolicyName (finalPolicyName cfg.name cfg.major_version cfg.language
            cfg.license cfg.platform) cfg.version)
          cfg.executable_command cfg.process_name Prog.done)
        { s with contentList := s.contentList }
    have htcfix : tc' = s.testCoord :=
      ffix ⟨h4, h5, fun hff => Bool.noConfusion hff, fun _ => h7 hauto⟩
    rw [htc, htcfix]
    obtain ⟨tr', htr, _, _, _, gfix⟩ :=
      reviewSectA_run (finalPolicyName cfg.name cfg.major_version cfg.language cfg.license
          cfg.platform)
        (selfServicePolicyName (finalPolicyName cfg.name cfg.major_version cfg.language
          cfg.license cfg.platform) cfg.version)
        cfg.executable_command cfg.process_name Prog.done
        { { s with contentList := s.contentList } with testCoord := s.testCoord }
    have htrfix : tr' = s.testReview := gfix ⟨h8, h9⟩
    rw [htr, htrfix, run_done]

/-! ### Claims C3 and C4 -/

/-- Claim C3: for a Flow B run (final policy name supplied) at production
tier whose Content List holds an entry for that final policy name with
Autostage = Yes, every Test Coordination row keyed by the self-service
policy name ends with Status = Autostage (not Done) and
Release Completed = Yes (and such a row exists), and every Content List
row for the final policy name ends with Untested Version cleared to the
empty string, Prod. Version set to the run's version, and Test Report set
to the constructed display-form URL (site URL, fixed list path, URL-encoded
Title parameter equal to the self-service policy name) followed by the
literal label ", Test Report" (and such a row exists). -/
theorem c3_autostage_release (cfg : Config) (s : SPState)
    (hB : cfg.selfservice_policy_name ≠ "")
    (hprd : hasSub cfg.jss_url "prd" = true)
    (hauto : check_list s "Jamf Content List"
      [("Self Service Content", "Eq", cfg.selfservice_policy_name),
        ("Autostage", "Eq", "Yes")] = true) :
    (∃ r ∈ (mainRun cfg s).testCoord,
        getField r "Self Service Content Name" =
          selfServicePolicyName cfg.selfservice_policy_name cfg.version) ∧
    (∀ r ∈ (mainRun cfg s).testCoord,
      getField r "Self Service Content Name" =
          selfServicePolicyName cfg.selfservice_policy_name cfg.version →
        getField r "Release Completed" = "Yes" ∧ getField r "Status" = "Autostage") ∧
    (∃ r ∈ (mainRun cfg s).contentList,
        getField r "Self Service Content" = cfg.selfservice_policy_name) ∧
    (∀ r ∈ (mainRun cfg s).contentList,
      getField r "Self Service Content" = cfg.selfservice_policy_name →
        getField r "Untested Version" = "" ∧
        getField r "Prod. Version" = cfg.version ∧
        getField r "Test Report" =
          test_report_url cfg.sp_url
              (selfServicePolicyName cfg.selfservice_policy_name cfg.version) ++
            ", Test Report") := by
  rw [check_list_CL] at hauto
  rw [mainRun, mainProg, if_neg hB]
  simp only [run_connect]
  obtain ⟨tc', htc, htcE, htcF⟩ :=
    coordSectB_run cfg.selfservice_policy_name
      (selfServicePolicyName cfg.selfservice_policy_name cfg.version) cfg.jss_url
      (reviewSectB cfg.selfservice_policy_name
        (selfServicePolicyName cfg.selfservice_policy_name cfg.version) cfg.jss_url
        (contentSectB cfg.selfservice_policy_name
          (selfServicePolicyName cfg.selfservice_policy_name cfg.version) cfg.version
          cfg.sp_url cfg.jss_url Prog.done)) s
  rw [htc]
  obtain ⟨tr', htr, htrE, htrF⟩ :=
    reviewSectB_run cfg.selfservice_policy_name
      (selfServicePolicyName cfg.selfservice_policy_name cfg.version) cfg.jss_url
      (contentSectB cfg.selfservice_policy_name
        (selfServicePolicyName cfg.selfservice_policy_name cfg.version) cfg.version
        cfg.sp_url cfg.jss_url Prog.done) { s with testCoord := tc' }
  rw [htr]
  obtain ⟨cl', hcl, hclF, hclT⟩ :=
    contentSectB_run cfg.selfservice_policy_name
      (selfServicePolicyName cfg.selfservice_policy_name cfg.version) cfg.version
      cfg.sp_url cfg.jss_url Prog.done
      { { s with testCoord := tc' } with testReview := tr' }
  rw [hcl, run_done]
  refine ⟨htcE, htcF hprd hauto, ?_, ?_⟩
  · exact (hclT hprd).1
  · exact (hclT hprd).2

/-- Claim C4: for every Flow B run at test tier (URL containing `tst`),
the Test Review rows keyed by the self-service policy name are upserted
with Release Completed TST = Yes and Ready for Production = Yes (such a
row exists afterwards), and the Release Completed PRD field of every
pre-existing Test Review row is left unchanged (the freshly created row,
if any, carries no Release Completed PRD value). -/
theorem c4_test_tier_review (cfg : Config) (s : SPState)
    (hB : cfg.selfservice_policy_name ≠ "")
    (htst : hasSub cfg.jss_url "tst" = true) :
    (∃ r ∈ (mainRun cfg s).testReview,
        getField r "Self Service Content Name" =
          selfServicePolicyName cfg.selfservice_policy_name cfg.version) ∧
    (∀ r ∈ (mainRun cfg s).testReview,
      getField r "Self Service Content Name" =
          selfServicePolicyName cfg.selfservice_policy_name cfg.version →
        getField r "Release Completed TST" = "Yes" ∧
          getField r "Ready for Production" = "Yes") ∧
    ((mainRun cfg s).testReview.map (fun r => getField r "Release Completed PRD") =
        s.testReview.map (fun r => getField r "Release Completed PRD") ∨
      (mainRun cfg s).testReview.map (fun r => getField r "Release Completed PRD") =
        s.testReview.map (fun r => getField r "Release Completed PRD") ++ [""]) := by
  rw [mainRun, mainProg, if_neg hB]
  simp only [run_connect]
  obtain ⟨tc', htc, htcE, htcF⟩ :=
    coordSectB_run cfg.selfservice_policy_name
      (selfServicePolicyName cfg.selfservice_policy_name cfg.version) cfg.jss_url
      (reviewSectB cfg.selfservice_policy_name
        (selfServicePolicyName cfg.selfservice_policy_name cfg.version) cfg.jss_url
        (contentSectB cfg.selfservice_policy_name
          (selfServicePolicyName cfg.selfservice_policy_name cfg.version) cfg.version
          cfg.sp_url cfg.jss_url Prog.done)) s
  rw [htc]
  obtain ⟨tr', htr, htrE, htrF⟩ :=
    reviewSectB_run cfg.selfservice_policy_name
      (selfServicePolicyName cfg.selfservice_policy_name cfg.version) cfg.jss_url
      (contentSectB cfg.selfservice_policy_name
        (selfServicePolicyName cfg.selfservice_policy_name cfg.version) cfg.version
        cfg.sp_url cfg.jss_url Prog.done) { s with testCoord := tc' }
  rw [htr]
  obtain ⟨cl', hcl, hclF, hclT⟩ :=
    contentSectB_run cfg.selfservice_policy_name
      (selfServicePolicyName cfg.selfservice_policy_name cfg.version) cfg.version
      cfg.sp_url cfg.jss_url Prog.done
      { { s with testCoord := tc' } with testReview := tr' }
  rw [hcl, run_done]
  exact ⟨htrE, (htrF htst).1, (htrF htst).2⟩

/-- Witness for C3 at a concrete production-tier configuration and a
store holding an autostage content entry. -/
theorem c3_witness :
    check_list stateAuto "Jamf Content List"
      [("Self Service Content", "Eq", cfgFlowB.selfservice_policy_name),
        ("Autostage", "Eq", "Yes")] = true ∧
    ((∃ r ∈ (mainRun cfgFlowB stateAuto).testCoord,
        getField r "Self Service Content Name" =
          selfServicePolicyName cfgFlowB.selfservice_policy_name cfgFlowB.version) ∧
    (∀ r ∈ (mainRun cfgFlowB stateAuto).testCoord,
      getField r "Self Service Content Name" =
          selfServicePolicyName cfgFlowB.selfservice_policy_name cfgFlowB.version →
        getField r "Release Completed" = "Yes" ∧ getField r "Status" = "Autostage") ∧
    (∃ r ∈ (mainRun cfgFlowB stateAuto).contentList,
        getField r "Self Service Content" = cfgFlowB.selfservice_policy_name) ∧
    (∀ r ∈ (mainRun cfgFlowB stateAuto).contentList,
      getField r "Self Service Content" = cfgFlowB.selfservice_policy_name →
        getField r "Untested Version" = "" ∧
        getField r "Prod. Version" = cfgFlowB.version ∧
        getField r "Test Report" =
          test_report_url cfgFlowB.sp_url
              (selfServicePolicyName cfgFlowB.selfservice_policy_name cfgFlowB.version) ++
            ", Test Report")) :=
  ⟨by decide,
    c3_autostage_release cfgFlowB stateAuto (by decide) (by decide) (by decide)⟩

/-- Witness for C4 at a concrete test-tier configuration and a store with
one pre-existing review entry. -/
theorem c4_witness :
    ((∃ r ∈ (mainRun cfgFlowBtst stateAuto).testReview,
        getField r "Self Service Content Name" =
          selfServicePolicyName cfgFlowBtst.selfservice_policy_name cfgFlowBtst.version) ∧
    (∀ r ∈ (mainRun cfgFlowBtst stateAuto).testReview,
      getField r "Self Service Content Name" =
          selfServicePolicyName cfgFlowBtst.selfservice_policy_name cfgFlowBtst.version →
        getField r "Release Completed TST" = "Yes" ∧
          getField r "Ready for Production" = "Yes") ∧
    ((mainRun cfgFlowBtst stateAuto).testReview.map
          (fun r => getField r "Release Completed PRD") =
        stateAuto.testReview.map (fun r => getField r "Release Completed PRD") ∨
      (mainRun cfgFlowBtst stateAuto).testReview.map
          (fun r => getField r "Release Completed PRD") =
        stateAuto.testReview.map (fun r => getField r "Release Completed PRD") ++ [""])) :=
  c4_test_tier_review cfgFlowBtst stateAuto (by decide) (by decide)

/-! ### Claim C7 -/

/-- Claim C7: for every non-empty criteria mapping with operators among
`Eq` and `Neq`, the predicate chain built by `build_query`, evaluated
under the store's boolean-tree semantics (`recordMatches`), returns true
against a record satisfying all criteria and false against a record
violating any one criterion, and the returned fetch-field list always
includes the record identifier field `ID`. -/
theorem c7_query_conjunction (c : Criteria) (r : Record) (_hne : c ≠ [])
    (_hops : ∀ t ∈ c, t.2.1 = "Eq" ∨ t.2.1 = "Neq") :
    "ID" ∈ (build_query c).1 ∧
      ((∀ t ∈ c, satCrit r t = true) → recordMatches c r = true) ∧
      (∀ t ∈ c, satCrit r t = false → recordMatches c r = false) := by
  refine ⟨by simp [build_query], ?_, ?_⟩
  · intro h
    rw [recordMatches_all]
    exact List.all_eq_true.2 h
  · intro t ht hsat
    rw [recordMatches_all]
    rw [Bool.eq_false_iff]
    intro hall
    rw [List.all_eq_true.1 hall t ht] at hsat
    exact Bool.noConfusion hsat

/-- Witness for C7 at a concrete two-criterion query and a concrete
record. -/
theorem c7_witness :
    [(("A" : String), (("Eq" : String), ("1" : String))), ("B", ("Neq", "2"))] ≠ [] ∧
      ("ID" ∈ (build_query [("A", "Eq", "1"), ("B", "Neq", "2")]).1 ∧
        ((∀ t ∈ [(("A" : String), (("Eq" : String), ("1" : String))), ("B", ("Neq", "2"))],
            satCrit [("A", "1"), ("B", "3")] t = true) →
          recordMatches [("A", "Eq", "1"), ("B", "Neq", "2")] [("A", "1"), ("B", "3")] = true) ∧
        (∀ t ∈ [(("A" : String), (("Eq" : String), ("1" : String))), ("B", ("Neq", "2"))],
          satCrit [("A", "1"), ("B", "3")] t = false →
            recordMatches [("A", "Eq", "1"), ("B", "Neq", "2")] [("A", "1"), ("B", "3")] = false)) :=
  ⟨by decide,
    c7_query_conjunction [("A", "Eq", "1"), ("B", "Neq", "2")] [("A", "1"), ("B", "3")]
      (by decide) (by decide)⟩

/-! ### Claim C8 -/

/-- Claim C8: for every run in which a required configuration input is
missing (for example, no package category supplied), the run surfaces a
configuration error before issuing any remote call, so the three lists are
unchanged.  The validation step itself lives in the enclosing plugin
harness and is modelled from the spec (`runProcessor`); the required-input
table is taken from the source's `input_variables`. -/
theorem c8_missing_required_input (cfg : Config) (s : SPState)
    (h : requiredInputsPresent cfg = false) :
    runProcessor cfg s = { state := s, err := some ProcErr.configurationError } := by
  rw [runProcessor, if_neg]
  rw [h]
  exact Bool.noConfusion

/-- Witness for C8: a configuration with no package category surfaces a
configuration error and leaves the empty store untouched. -/
theorem c8_witness :
    runProcessor { cfgBase with category := "" } emptyState =
      { state := emptyState, err := some ProcErr.configurationError } :=
  c8_missing_required_input { cfgBase with category := "" } emptyState (by decide)

/-! ### Claim C9 -/

/-- Claim C9: for every run in which some remote call fails (modelled as
the first `n` remote calls succeeding and the next one aborting the run),
the run terminates without issuing any of the remaining operations and
every mutation already applied remains applied: the resulting list state
is exactly the state produced by executing a prefix of the flow's remote
call sequence, of which the completed run executes the whole. -/
theorem c9_failure_prefix (cfg : Config) (s : SPState) (n : Nat) :
    runBudget (mainProg cfg) s n = applyCalls ((callTrace (mainProg cfg) s).take n) s ∧
      run (mainProg cfg) s = applyCalls (callTrace (mainProg cfg) s) s :=
  ⟨runBudget_eq_take _ _ _, run_eq_applyCalls _ _⟩

/-! ### Claim C10 -/

/-- Claim C10: for every run with no final policy name supplied and a
target URL not containing `prd`, the program performs no remote operation
at all — the call trace is empty, so no connection is opened and none of
the three lists is read or mutated — and it terminates normally with the
state unchanged. -/
theorem c10_no_op_run (cfg : Config) (s : SPState)
    (hA : cfg.selfservice_policy_name = "")
    (hurl : hasSub cfg.jss_url "prd" = false) :
    callTrace (mainProg cfg) s = [] ∧ mainRun cfg s = s := by
  have hm : mainProg cfg = Prog.done := by
    rw [mainProg, if_pos hA, if_neg]
    rw [hurl]
    exact Bool.noConfusion
  exact ⟨by rw [hm]; rfl, by rw [mainRun, hm, run_done]⟩

/-- Witness for C10 at a concrete test-tier configuration. -/
theorem c10_witness :
    callTrace (mainProg { cfgBase with jss_url := "https://jamf.tst.example.com" })
        emptyState = [] ∧
      mainRun { cfgBase with jss_url := "https://jamf.tst.example.com" } emptyState =
        emptyState :=
  c10_no_op_run { cfgBase with jss_url := "https://jamf.tst.example.com" } emptyState
    (by decide) (by decide)

/-! ### Claims C1, C2 and C6 -/

/-- Counterexample to claim C1 as stated: in a completed Flow A run at
production tier whose store already holds the exact coordination entry for
the current version, the stale unreleased entry for the same final content
name but an older version is NOT obsoleted (the obsoleting pass runs only
in the no-exact-entry branch), so two coordination entries for the final
policy name remain in a non-terminal release state (Release Completed =
No, status not Obsolete). -/
theorem c1_counterexample :
    cfgV2.selfservice_policy_name = "" ∧
    hasSub cfgV2.jss_url "prd" = true ∧
    finalPolicyName cfgV2.name cfgV2.major_version cfgV2.language cfgV2.license
      cfgV2.platform = "Foo" ∧
    (mainRun cfgV2 c1state).testCoord.countP (fun r =>
      (getField r "Final Content Name" == "Foo") &&
      (getField r "Release Completed" == "No") &&
      !(getField r "Status" == "Obsolete")) = 2 := by
  refine ⟨rfl, by decide, rfl, by decide⟩

/-- Claim C1 (amended): for every completed Flow A run at production tier
whose store holds no coordination entry and no review entry keyed by the
run's self-service policy name, afterwards no coordination entry for the
run's final policy name is left in a non-terminal state — every one with
Release Completed = No has been set to status Obsolete — and no review
entry for the final policy name is left with Release Completed TST = No.
(This is the obsoleting pass of the source; the unconditional at-most-one
form of the claim fails, see the counterexample.) -/
theorem c1_unreleased_terminalized (cfg : Config) (s : SPState)
    (hA : cfg.selfservice_policy_name = "")
    (hp : hasSub cfg.jss_url "prd" = true)
    (hTC : anyMatch s.testCoord
      [("Self Service Content Name", "Eq", selfServicePolicyName
        (finalPolicyName cfg.name cfg.major_version cfg.language cfg.license cfg.platform)
        cfg.version)] = false)
    (hTR : anyMatch s.testReview
      [("Self Service Content Name", "Eq", selfServicePolicyName
        (finalPolicyName cfg.name cfg.major_version cfg.language cfg.license cfg.platform)
        cfg.version)] = false) :
    (∀ r ∈ (mainRun cfg s).testCoord,
      getField r "Final Content Name" = finalPolicyName cfg.name cfg.major_version
        cfg.language cfg.license cfg.platform →
      getField r "Release Completed" = "No" → getField r "Status" = "Obsolete") ∧
    (∀ r ∈ (mainRun cfg s).testReview,
      getField r "Final Content Name" = finalPolicyName cfg.name cfg.major_version
        cfg.language cfg.license cfg.platform →
      getField r "Release Completed TST" ≠ "No") := by
  rw [mainRun, mainProg, if_pos hA]
  simp only [hp, if_true, run_connect]
  obtain ⟨cl', hcl, _, _, _, _⟩ :=
    contentSectA_run (finalPolicyName cfg.name cfg.major_version cfg.language cfg.license
        cfg.platform) cfg.version cfg.category
      (autostageCheckA (finalPolicyName cfg.name cfg.major_version cfg.language
          cfg.license cfg.platform)
        fun is_app_autostage =>
          coordSectA (finalPolicyName cfg.name cfg.major_version cfg.language cfg.license
              cfg.platform)
            (selfServicePolicyName (finalPolicyName cfg.name cfg.major_version
              cfg.language cfg.license cfg.platform) cfg.version) is_app_autostage
            (reviewSectA (finalPolicyName cfg.name cfg.major_version cfg.language
                cfg.license cfg.platform)
              (selfServicePolicyName (finalPolicyName cfg.name cfg.major_version
                cfg.language cfg.license cfg.platform) cfg.version)
              cfg.executable_command cfg.process_name Prog.done)) s
  rw [hcl, autostageCheckA, run_check]
  rcases Bool.eq_false_or_eq_true (check_list { s with contentList := cl' }
      "Jamf Content List"
      [("Self Service Content", "Eq", finalPolicyName cfg.name cfg.major_version
        cfg.language cfg.license cfg.platform), ("Autostage", "Eq", "Yes")])
    with hauto | hauto
  all_goals
    rw [hauto]
  · obtain ⟨tc', htc, _, _, _, _, f5, _⟩ :=
      coordSectA_run (finalPolicyName cfg.name cfg.major_version cfg.language cfg.license
          cfg.platform)
        (selfServicePolicyName (finalPolicyName cfg.name cfg.major_version cfg.language
          cfg.license cfg.platform) cfg.version) true
        (reviewSectA (finalPolicyName cfg.name cfg.major_version cfg.language cfg.license
            cfg.platform)
          (selfServicePolicyName (finalPolicyName cfg.name cfg.major_version cfg.language
            cfg.license cfg.platform) cfg.version)
          cfg.executable_command cfg.process_name Prog.done)
        { s with contentList := cl' }
    rw [htc]
    obtain ⟨tr', htr, _, g2, _, _⟩ :=
      reviewSectA_run (finalPolicyName cfg.name cfg.major_version cfg.language cfg.license
          cfg.platform)
        (selfServicePolicyName (finalPolicyName cfg.name cfg.major_version cfg.language
          cfg.license cfg.platform) cfg.version)
        cfg.executable_command cfg.process_name Prog.done
        { { s with contentList := cl' } with testCoord := tc' }
    rw [htr, run_done]
    exact ⟨f5 hTC, g2 hTR⟩
  · obtain ⟨tc', htc, _, _, _, _, f5, _⟩ :=
      coordSectA_run (finalPolicyName cfg.name cfg.major_version cfg.language cfg.license
          cfg.platform)
        (selfServicePolicyName (finalPolicyName cfg.name cfg.major_version cfg.language
          cfg.license cfg.platform) cfg.version) false
        (reviewSectA (finalPolicyName cfg.name cfg.major_version cfg.language cfg.license
            cfg.platform)
          (selfServicePolicyName (finalPolicyName cfg.name cfg.major_version cfg.language
            cfg.license cfg.platform) cfg.version)
          cfg.executable_command cfg.process_name Prog.done)
        { s with contentList := cl' }
    rw [htc]
    obtain ⟨tr', htr, _, g2, _, _⟩ :=
      reviewSectA_run (finalPolicyName cfg.name cfg.major_version cfg.language cfg.license
          cfg.platform)
        (selfServicePolicyName (finalPolicyName cfg.name cfg.major_version cfg.language
          cfg.license cfg.platform) cfg.version)
        cfg.executable_command cfg.process_name Prog.done
        { { s with contentList := cl' } with testCoord := tc' }
    rw [htr, run_done]
    exact ⟨f5 hTC, g2 hTR⟩

/-- Witness for the amended C1 at a concrete configuration and a store
holding only stale unreleased entries for an older version. -/
theorem c1_witness :
    cfgBase.selfservice_policy_name = "" ∧
    hasSub cfgBase.jss_url "prd" = true ∧
    anyMatch c1fresh.testCoord
      [("Self Service Content Name", "Eq", selfServicePolicyName
        (finalPolicyName cfgBase.name cfgBase.major_version cfgBase.language
          cfgBase.license cfgBase.platform) cfgBase.version)] = false ∧
    anyMatch c1fresh.testReview
      [("Self Service Content Name", "Eq", selfServicePolicyName
        (finalPolicyName cfgBase.name cfgBase.major_version cfgBase.language
          cfgBase.license cfgBase.platform) cfgBase.version)] = false ∧
    ((∀ r ∈ (mainRun cfgBase c1fresh).testCoord,
      getField r "Final Content Name" = finalPolicyName cfgBase.name
        cfgBase.major_version cfgBase.language cfgBase.license cfgBase.platform →
      getField r "Release Completed" = "No" → getField r "Status" = "Obsolete") ∧
    (∀ r ∈ (mainRun cfgBase c1fresh).testReview,
      getField r "Final Content Name" = finalPolicyName cfgBase.name
        cfgBase.major_version cfgBase.language cfgBase.license cfgBase.platform →
      getField r "Release Completed TST" ≠ "No")) :=
  ⟨rfl, by decide, by decide, by decide,
    c1_unreleased_terminalized cfgBase c1fresh rfl (by decide) (by decide) (by decide)⟩

/-- Counterexample to claim C2 as stated: a second Flow A run on the
store produced by a first run from the empty store is not a no-op — the
review entry created by the first run lacks the three "No" status fields,
and the second run materializes them — so running Flow A twice does not
equal running it once. -/
theorem c2_counterexample :
    cfgBase.selfservice_policy_name = "" ∧
    hasSub cfgBase.jss_url "prd" = true ∧
    mainRun cfgBase (mainRun cfgBase emptyState) ≠ mainRun cfgBase emptyState := by
  refine ⟨rfl, by decide, by decide⟩

/-- Claim C2 (amended): Flow A stabilizes after two runs — for every input
configuration and every initial store, a third run with identical inputs
leaves the store exactly as the second run left it (the literal
once-equals-twice form fails on the first run from a fresh store, see the
counterexample). -/
theorem c2_stabilizes (cfg : Config) (s : SPState)
    (hA : cfg.selfservice_policy_name = "")
    (hp : hasSub cfg.jss_url "prd" = true) :
    mainRun cfg (mainRun cfg (mainRun cfg s)) = mainRun cfg (mainRun cfg s) := by
  obtain ⟨_, _, _, _, _, _, _, a8, _⟩ := flowA_post cfg s hA hp
  obtain ⟨b1, b2, b3, b4, b5, b6, b7, b8, b9⟩ := flowA_post cfg (mainRun cfg s) hA hp
  refine flowA_fixpoint cfg (mainRun cfg (mainRun cfg s)) hA hp b1 b2 b4 b5 ?_ ?_ b8
    (b9 a8)
  · intro h
    exact b6 (by rw [← b3]; exact h)
  · intro h
    exact b7 (by rw [← b3]; exact h)

/-- Witness for the amended C2 at a concrete configuration from the
empty store. -/
theorem c2_witness :
    cfgBase.selfservice_policy_name = "" ∧
    hasSub cfgBase.jss_url "prd" = true ∧
    mainRun cfgBase (mainRun cfgBase (mainRun cfgBase emptyState)) =
      mainRun cfgBase (mainRun cfgBase emptyState) :=
  ⟨rfl, by decide, c2_stabilizes cfgBase emptyState rfl (by decide)⟩

/-- Claim C6: in both flows the Test Coordination and Test Review records
touched by the run are keyed by the self-service policy name, which equals
the final policy name followed by the literal " (Testing) v" followed by
the version string — in Flow A (no final policy name supplied, production
tier) with the computed final policy name, and in Flow B (final policy
name supplied) with the supplied one, at every tier including production
release. -/
theorem c6_self_service_key (cfgA cfgB : Config) (sA sB : SPState)
    (hA1 : cfgA.selfservice_policy_name = "")
    (hA2 : hasSub cfgA.jss_url "prd" = true)
    (hB : cfgB.selfservice_policy_name ≠ "") :
    (∃ r ∈ (mainRun cfgA sA).testCoord,
      getField r "Self Service Content Name" =
        finalPolicyName cfgA.name cfgA.major_version cfgA.language cfgA.license
          cfgA.platform ++ " (Testing) v" ++ cfgA.version) ∧
    (∃ r ∈ (mainRun cfgA sA).testReview,
      getField r "Self Service Content Name" =
        finalPolicyName cfgA.name cfgA.major_version cfgA.language cfgA.license
          cfgA.platform ++ " (Testing) v" ++ cfgA.version) ∧
    (∃ r ∈ (mainRun cfgB sB).testCoord,
      getField r "Self Service Content Name" =
        cfgB.selfservice_policy_name ++ " (Testing) v" ++ cfgB.version) ∧
    (∃ r ∈ (mainRun cfgB sB).testReview,
      getField r "Self Service Content Name" =
        cfgB.selfservice_policy_name ++ " (Testing) v" ++ cfgB.version) := by
  obtain ⟨_, _, _, a4, _, _, _, a8, _⟩ := flowA_post cfgA sA hA1 hA2
  refine ⟨anyMatch_one_true a4, anyMatch_one_true a8, ?_⟩
  rw [mainRun, mainProg, if_neg hB]
  simp only [run_connect]
  obtain ⟨tc', htc, htcE, _⟩ :=
    coordSectB_run cfgB.selfservice_policy_name
      (selfServicePolicyName cfgB.selfservice_policy_name cfgB.version) cfgB.jss_url
      (reviewSectB cfgB.selfservice_policy_name
        (selfServicePolicyName cfgB.selfservice_policy_name cfgB.version) cfgB.jss_url
        (contentSectB cfgB.selfservice_policy_name
          (selfServicePolicyName cfgB.selfservice_policy_name cfgB.version) cfgB.version
          cfgB.sp_url cfgB.jss_url Prog.done)) sB
  rw [htc]
  obtain ⟨tr', htr, htrE, _⟩ :=
    reviewSectB_run cfgB.selfservice_policy_name
      (selfServicePolicyName cfgB.selfservice_policy_name cfgB.version) cfgB.jss_url
      (contentSectB cfgB.selfservice_policy_name
        (selfServicePolicyName cfgB.selfservice_policy_name cfgB.version) cfgB.version
        cfgB.sp_url cfgB.jss_url Prog.done) { sB with testCoord := tc' }
  rw [htr]
  obtain ⟨cl', hcl, _, _⟩ :=
    contentSectB_run cfgB.selfservice_policy_name
      (selfServicePolicyName cfgB.selfservice_policy_name cfgB.version) cfgB.version
      cfgB.sp_url cfgB.jss_url Prog.done
      { { sB with testCoord := tc' } with testReview := tr' }
  rw [hcl, run_done]
  exact ⟨htcE, htrE⟩

/-- Witness for C6 at concrete Flow A and Flow B configurations from the
empty store. -/
theorem c6_witness :
    cfgBase.selfservice_policy_name = "" ∧
    hasSub cfgBase.jss_url "prd" = true ∧
    cfgFlowB.selfservice_policy_name ≠ "" ∧
    ((∃ r ∈ (mainRun cfgBase emptyState).testCoord,
      getField r "Self Service Content Name" =
        finalPolicyName cfgBase.name cfgBase.major_version cfgBase.language
          cfgBase.license cfgBase.platform ++ " (Testing) v" ++ cfgBase.version) ∧
    (∃ r ∈ (mainRun cfgBase emptyState).testReview,
      getField r "Self Service Content Name" =
        finalPolicyName cfgBase.name cfgBase.major_version cfgBase.language
          cfgBase.license cfgBase.platform ++ " (Testing) v" ++ cfgBase.version) ∧
    (∃ r ∈ (mainRun cfgFlowB emptyState).testCoord,
      getField r "Self Service Content Name" =
        cfgFlowB.selfservice_policy_name ++ " (Testing) v" ++ cfgFlowB.version) ∧
    (∃ r ∈ (mainRun cfgFlowB emptyState).testReview,
      getField r "Self Service Content Name" =
        cfgFlowB.selfservice_policy_name ++ " (Testing) v" ++ cfgFlowB.version)) :=
  ⟨rfl, by decide, by decide,
    c6_self_service_key cfgBase cfgFlowB emptyState emptyState rfl (by decide)
      (by decide)⟩

end JamfSP
